import Mathlib

/-!
Verification development for the FakturMatch reconciliation engine
(`src/app.py`).  The Python/pandas pipeline is shallowly embedded:

* spreadsheet cells become `Cell` (missing value `na`, text, or an exact
  rational number standing for the float),
* a dataframe row becomes an association list `Row := List (String × Cell)`
  looked up with `List.lookup` (first match, like a pandas row with unique
  column labels), and a dataframe becomes `DF` (a column list plus rows),
* Python string helpers (`str.strip`, `str.split`, `str.upper`, `re.sub`,
  `float(...)`) are modelled on `List Char`.

Floats are modelled by `ℚ`: every amount appearing in the spec's examples is
exactly representable and the code applies no rounding.  Python `float(...)`
is modelled on its decimal fragment (sign, digits, decimal point, exponent);
the special spellings "inf"/"nan" and underscore separators are treated as
unparseable, and `str(...)` applied to a numeric cell is abstracted by
`toString` on `ℚ` (no claim depends on that rendering).
-/

set_option maxRecDepth 8000

namespace FakturMatch

/-- Cell of a spreadsheet / dataframe: missing (`NaN`/`None`), a string, or a
number (Python float modelled as an exact rational). -/
inductive Cell where
  | na : Cell
  | str : String → Cell
  | num : ℚ → Cell
deriving DecidableEq, Repr

/-- Whitespace test used to model Python `str.strip` (the ASCII whitespace
characters Python strips). -/
def isWs (c : Char) : Bool :=
  c == ' ' || c == '\t' || c == '\n' || c == '\x0d' || c == '\x0b' || c == '\x0c'

/-- Model of Python `str.strip()` on a character list: drop whitespace from
the left, then from the right. -/
def trimChars (l : List Char) : List Char :=
  List.rdropWhile isWs (List.dropWhile isWs l)

/-- Model of Python `str.strip()` on a `String`. -/
def pyStrip (s : String) : String :=
  String.mk (trimChars s.data)

/-- Model of Python `s.split(sep)` for a single-character separator: every
occurrence of the separator cuts; `n+1` segments for `n` separators. -/
def splitOnChar (c : Char) : List Char → List (List Char)
  | [] => [[]]
  | a :: t =>
    if a = c then [] :: splitOnChar c t
    else
      match splitOnChar c t with
      | [] => [[a]]
      | s :: ss => (a :: s) :: ss

/-- Uppercase A–Z or digit 0–9 (the character class `[A-Z0-9]` of
`_normalize_columns` in `src/app.py`). -/
def isAlnumUp (c : Char) : Bool :=
  (decide ('A' ≤ c) && decide (c ≤ 'Z')) || (decide ('0' ≤ c) && decide (c ≤ '9'))

/-- Model of Python `str.upper()` on one ASCII character (lowercase a–z is
mapped 32 code points down, everything else is untouched; the column labels
handled by the pipeline are ASCII). -/
def upChar (c : Char) : Char :=
  if decide ('a' ≤ c) && decide (c ≤ 'z') then Char.ofNat (c.toNat - 32) else c

/-- Replacement pass of `re.sub(r"[^A-Z0-9]+", "_", col)`: each maximal run
of non-`[A-Z0-9]` characters becomes a single underscore.  The flag records
whether we are inside such a run. -/
def repRunsAux : Bool → List Char → List Char
  | _, [] => []
  | inRun, a :: t =>
    if isAlnumUp a then a :: repRunsAux false t
    else if inRun then repRunsAux true t
    else '_' :: repRunsAux true t

/-- Replacement pass of `re.sub(r"_+", "_", col)`: each maximal run of
underscores becomes a single underscore. -/
def repUndAux : Bool → List Char → List Char
  | _, [] => []
  | inRun, a :: t =>
    if a = '_' then
      if inRun then repUndAux true t else '_' :: repUndAux true t
    else a :: repUndAux false t

/-- Model of Python `col.strip("_")`: drop the given character from both
ends. -/
def stripChar (c : Char) (l : List Char) : List Char :=
  List.rdropWhile (fun d => d = c) (List.dropWhile (fun d => d = c) l)

/-- The `clean` helper inside `_normalize_columns` (src/app.py:42-46):
`str(col).strip().upper()`, then `re.sub(r"[^A-Z0-9]+", "_", col)`, then
`re.sub(r"_+", "_", col).strip("_")`, on a character list. -/
def cleanChars (l : List Char) : List Char :=
  stripChar '_' (repUndAux false (repRunsAux false ((trimChars l).map upChar)))

/-- Column-name normalizer of `_normalize_columns` on a `String`. -/
def cleanCol (s : String) : String :=
  String.mk (cleanChars s.data)

/-- Digit-list to natural number value (most significant first); `none` when
the list contains a non-digit. -/
def digitsVal : List Char → Option ℕ
  | [] => some 0
  | c :: t =>
    if c.isDigit then
      (digitsVal t).map (fun v => v + (c.toNat - '0'.toNat) * 10 ^ t.length)
    else none

/-- Split a character list at the first occurrence of a separator satisfying
`p`: returns the part before and, when a separator is present, the part
after it. -/
def splitFirst (p : Char → Bool) : List Char → List Char × Option (List Char)
  | [] => ([], none)
  | a :: t =>
    if p a then ([], some t)
    else
      let r := splitFirst p t
      (a :: r.1, r.2)

/-- Mantissa part of a Python float literal: `digits`, `digits.digits`,
`digits.` or `.digits` (at least one digit overall). -/
def pyFloatMantissa (l : List Char) : Option ℚ :=
  let (ip, fpOpt) := splitFirst (fun c => c == '.') l
  match fpOpt with
  | none => (digitsVal ip).bind fun i => if ip.isEmpty then none else some (i : ℚ)
  | some fp =>
    (digitsVal ip).bind fun i =>
      (digitsVal fp).bind fun f =>
        if ip.isEmpty && fp.isEmpty then none
        else some ((i : ℚ) + (f : ℚ) / (10 : ℚ) ^ fp.length)

/-- Optional leading sign; returns the sign as a rational factor and the
rest. -/
def pySign : List Char → ℚ × List Char
  | '-' :: t => (-1, t)
  | '+' :: t => (1, t)
  | l => (1, l)

/-- Model of Python `float(str)` on its decimal fragment: optional sign,
mantissa, optional exponent (`e`/`E`, optional sign, digits).  Surrounding
whitespace is stripped (as `float` does).  `inf`, `nan` and underscore
separators are out of the modelled fragment and yield `none`. -/
def pyFloat (l : List Char) : Option ℚ :=
  let l := trimChars l
  let (sgn, l) := pySign l
  let (mant, expOpt) := splitFirst (fun c => c == 'e' || c == 'E') l
  match expOpt with
  | none => (pyFloatMantissa mant).map (fun m => sgn * m)
  | some ex =>
    (pyFloatMantissa mant).bind fun m =>
      let (esgn, ed) := pySign ex
      (digitsVal ed).bind fun e =>
        if ed.isEmpty then none
        else some (sgn * m * (if esgn = 1 then (10 : ℚ) ^ e else ((10 : ℚ) ^ e)⁻¹))

/-- Model of Python `float(s)` on a `String`. -/
def pyFloatStr (s : String) : Option ℚ :=
  pyFloat s.data

/-- Model of Python `str(x)` on a cell: `NaN` renders as "nan" (the pandas
`astype(str)` rendering of a missing float); numeric rendering is abstracted
by `toString` on `ℚ` (no claim depends on it). -/
def cellStr : Cell → String
  | Cell.na => "nan"
  | Cell.str s => s
  | Cell.num q => toString q

/-- The locale-aware numeric parser `_parse_id_number` (src/app.py:52-81):
missing stays missing, numbers pass through, otherwise strip, drop spaces,
drop every "." (thousands separator), turn "," into "." (decimal separator),
unwrap a surrounding parenthesis pair as negation, and try `float(...)`;
`none` models the `np.nan` result. -/
def _parse_id_number : Cell → Option ℚ
  | Cell.na => none
  | Cell.num q => some q
  | Cell.str x =>
    let s := trimChars x.data
    if s.isEmpty then none
    else
      let s := s.filter (fun c => !(c == ' '))
      let s := s.filter (fun c => !(c == '.'))
      let s := s.map (fun c => if c = ',' then '.' else c)
      let neg := s.head? = some '(' && s.getLast? = some ')'
      let s := if neg then (s.drop 1).dropLast else s
      (pyFloat s).map (fun v => if neg then -v else v)

/-- Model of `pd.to_numeric(x, errors="coerce")` on one cell: numbers pass
through, strings are parsed as plain floats, anything else coerces to
`NaN`. -/
def toNumericCoerce : Cell → Option ℚ
  | Cell.na => none
  | Cell.num q => some q
  | Cell.str s => pyFloatStr s

/-- Selection of the key from the stripped parts of a description: part
index 1 when it exists and is non-empty, else no key (the tail of
`extract_no_faktur_from_description`, shared with the spec-side
restatement). -/
def partsToKey (parts : List (List Char)) : Option String :=
  if h : 2 ≤ parts.length then
    let p := parts.get ⟨1, by omega⟩
    if p.isEmpty then none else some (String.mk p)
  else none

/-- The key extractor `extract_no_faktur_from_description`
(src/app.py:28-34) on one description cell: `None`/`NaN` gives no key;
otherwise `str(desc).strip()` is split on "/", every part stripped, and part
index 1 is returned when it exists and is non-empty. -/
def extract_no_faktur_from_description (desc : Cell) : Option String :=
  match desc with
  | Cell.na => none
  | c => partsToKey ((splitOnChar '/' (trimChars (cellStr c).data)).map trimChars)

/-- Spec-side restatement of the key-extraction contract (spec §4.4): split
the description on "/" (without first stripping the whole string — the spec
does not mention that step), the key is the whitespace-trimmed second
segment (index 1) when at least two segments exist and it is non-empty,
else no key; a missing description gives no key. -/
def extractSpec (desc : Cell) : Option String :=
  match desc with
  | Cell.na => none
  | c => partsToKey ((splitOnChar '/' (cellStr c).data).map trimChars)

/-- Model of Python `str(x)` applied to an `Option String` (the result of
`.apply(extract_no_faktur_from_description)` followed by `astype(str)`):
Python `None` renders as the string "None". -/
def pyOptStr : Option String → String
  | none => "None"
  | some s => s

/-- Row of a dataframe: association list from column label to cell.  Lookup
takes the first match, like pandas with unique column labels. -/
abbrev Row := List (String × Cell)

/-- Model of pandas `row.get(label)`: `none` when the column is absent
(`row.get` returns Python `None`), `some Cell.na` when present but
missing. -/
def Row.get (r : Row) (k : String) : Option Cell :=
  List.lookup k r

/-- Column labels of a row. -/
def Row.keys (r : Row) : List String :=
  r.map Prod.fst

/-- Model of a pandas column assignment restricted to one row: replace the
value under an existing label, or append a new column at the end. -/
def setCol (r : Row) (k : String) (v : Cell) : Row :=
  if k ∈ r.keys then r.map (fun p => if p.1 = k then (k, v) else p) else r ++ [(k, v)]

/-- Dataframe: column labels plus rows.  `pd.read_excel` produces uniform
rows (every column present in every row); `materialize` below imposes
that shape on the input. -/
structure DF where
  cols : List String
  rows : List Row

/-- Reindex every row over the column list, missing entries becoming `NaN`
(the shape `pd.read_excel` guarantees). -/
def DF.materialize (df : DF) : DF :=
  { cols := df.cols,
    rows := df.rows.map (fun r => df.cols.map (fun c => (c, (Row.get r c).getD Cell.na))) }

/-- Model of `_normalize_columns` (src/app.py:37-50): rename every column by
`clean`. -/
def normalizeColumns (df : DF) : DF :=
  { cols := df.cols.map cleanCol,
    rows := df.rows.map (fun r => r.map (fun p => (cleanCol p.1, p.2))) }

/-- Rename one column label. -/
def DF.renameCol (df : DF) (old new : String) : DF :=
  { cols := df.cols.map (fun c => if c = old then new else c),
    rows := df.rows.map (fun r => r.map (fun p => if p.1 = old then (new, p.2) else p)) }

/-- Model of a pandas whole-column assignment `df[k] = ...` where the new
value of the cell is computed from the row. -/
def DF.setColWith (df : DF) (k : String) (f : Row → Cell) : DF :=
  { cols := if k ∈ df.cols then df.cols else df.cols ++ [k],
    rows := df.rows.map (fun r => setCol r k (f r)) }

/-- The `DOC_NO` → `NO_VOUCHER` key rename (src/app.py:94-97), applied to
each tax export when `DOC_NO` is present and `NO_VOUCHER` is not. -/
def renameDocNo (df : DF) : DF :=
  if "DOC_NO" ∈ df.cols ∧ "NO_VOUCHER" ∉ df.cols then df.renameCol "DOC_NO" "NO_VOUCHER" else df

/-- The DPP/PPN fallback of step 3 (src/app.py:106-109 and 115-118): copy
`AMOUNT_BEF_TAX` into a missing `DPP`, `TAX_AMOUNT` into a missing `PPN`. -/
def harmonizeAmounts (df : DF) : DF :=
  let df1 := if "DPP" ∉ df.cols ∧ "AMOUNT_BEF_TAX" ∈ df.cols then
      df.setColWith "DPP" (fun r => (Row.get r "AMOUNT_BEF_TAX").getD Cell.na)
    else df
  if "PPN" ∉ df1.cols ∧ "TAX_AMOUNT" ∈ df1.cols then
    df1.setColWith "PPN" (fun r => (Row.get r "TAX_AMOUNT").getD Cell.na)
  else df1

/-- Counterparty resolution for the first tax export (src/app.py:111):
`CUSTOMER` is `CUSTOMER_NAME` when that column exists, else `None`. -/
def setCustomer1 (df : DF) : DF :=
  if "CUSTOMER_NAME" ∈ df.cols then
    df.setColWith "CUSTOMER" (fun r => (Row.get r "CUSTOMER_NAME").getD Cell.na)
  else df.setColWith "CUSTOMER" (fun _ => Cell.na)

/-- Counterparty resolution for the second tax export (src/app.py:120-125):
prefer `NAMA_PEMBELI`, fall back to `CUSTOMER_NAME`, else `None`. -/
def setCustomer2 (df : DF) : DF :=
  if "NAMA_PEMBELI" ∈ df.cols then
    df.setColWith "CUSTOMER" (fun r => (Row.get r "NAMA_PEMBELI").getD Cell.na)
  else if "CUSTOMER_NAME" ∈ df.cols then
    df.setColWith "CUSTOMER" (fun r => (Row.get r "CUSTOMER_NAME").getD Cell.na)
  else df.setColWith "CUSTOMER" (fun _ => Cell.na)

/-- Conversion of an optional number back to a cell (`np.nan` for `none`). -/
def optCell : Option ℚ → Cell
  | none => Cell.na
  | some q => Cell.num q

/-- Step 4 of `compare_files` (src/app.py:129-139) for one tax export:
`NO_VOUCHER` becomes `astype(str).str.strip()`, and `DPP`/`PPN` are parsed
with `_parse_id_number` when present, else created as the constant 0.0. -/
def cleanKeyAmounts (df : DF) : DF :=
  let dfK := df.setColWith "NO_VOUCHER"
    (fun r => Cell.str (pyStrip (cellStr ((Row.get r "NO_VOUCHER").getD Cell.na))))
  let dfD := if "DPP" ∈ dfK.cols then
      dfK.setColWith "DPP" (fun r => optCell (_parse_id_number ((Row.get r "DPP").getD Cell.na)))
    else dfK.setColWith "DPP" (fun _ => Cell.num 0)
  if "PPN" ∈ dfD.cols then
    dfD.setColWith "PPN" (fun r => optCell (_parse_id_number ((Row.get r "PPN").getD Cell.na)))
  else dfD.setColWith "PPN" (fun _ => Cell.num 0)

/-- Full preparation of the first tax export ("FP Digunggung"): normalize
columns, resolve the key column (raising the src/app.py:100 `ValueError`
when neither `DOC_NO` nor `NO_VOUCHER` exists), harmonize amounts and
counterparty, stamp the bundling status, then clean key and amounts. -/
def prepCoretax1 (df0 : DF) : Except String DF :=
  let df := renameDocNo (normalizeColumns df0.materialize)
  if "NO_VOUCHER" ∈ df.cols then
    Except.ok (cleanKeyAmounts
      ((setCustomer1 (harmonizeAmounts df)).setColWith "FP_STATUS" (fun _ => Cell.str "FP Digunggung")))
  else Except.error "Coretax Digunggung: kolom DOC_NO / NO VOUCHER tidak ditemukan."

/-- Full preparation of the second tax export ("FP Tidak Digunggung"),
mirroring src/app.py:96-127 plus step 4. -/
def prepCoretax2 (df0 : DF) : Except String DF :=
  let df := renameDocNo (normalizeColumns df0.materialize)
  if "NO_VOUCHER" ∈ df.cols then
    Except.ok (cleanKeyAmounts
      ((setCustomer2 (harmonizeAmounts df)).setColWith "FP_STATUS" (fun _ => Cell.str "FP Tidak Digunggung")))
  else Except.error "Coretax Tidak Digunggung: kolom DOC_NO / NO VOUCHER tidak ditemukan."

/-- Columns kept from each tax export before concatenation
(src/app.py:142-143). -/
def keepColsList : List String :=
  ["NO_VOUCHER", "VOUCHER_NO", "DPP", "PPN", "CUSTOMER", "FP_STATUS"]

/-- The keep-columns actually present in a prepared export. -/
def keepCols (df : DF) : List String :=
  keepColsList.filter (· ∈ df.cols)

/-- Model of `pd.concat` of the two projected exports (src/app.py:144):
the columns are the union, rows missing a column get `NaN`. -/
def concatCombined (ct1 ct2 : DF) : DF :=
  let k1 := keepCols ct1
  let k2 := keepCols ct2
  let u := k1 ++ k2.filter (· ∉ k1)
  { cols := u,
    rows :=
      ct1.rows.map (fun r => u.map (fun c => (c, if c ∈ k1 then (Row.get r c).getD Cell.na else Cell.na)))
      ++ ct2.rows.map (fun r => u.map (fun c => (c, if c ∈ k2 then (Row.get r c).getD Cell.na else Cell.na))) }

/-- Contribution of one cell to a pandas `sum` aggregation: missing values
are skipped (count as 0).  In the pipeline the summed cells are always
numeric or missing; a string contributes 0 here (unreachable). -/
def qOfCell : Cell → ℚ
  | Cell.num q => q
  | _ => 0

/-- Key string of a combined/aggregated row (`NO_VOUCHER`, already a string
after step 4). -/
def keyStr (r : Row) : String :=
  cellStr ((Row.get r "NO_VOUCHER").getD Cell.na)

/-- Model of a pandas `first` aggregation: first non-missing value. -/
def firstNonNA (l : List Cell) : Option Cell :=
  l.find? (fun c => !(c == Cell.na))

/-- Model of Python `sorted(set(vals))` for strings: distinct values in
lexicographic order. -/
def sortedDedup (l : List String) : List String :=
  List.insertionSort (· ≤ ·) l.dedup

/-- The `join_unique` aggregator (src/app.py:147-149): drop missing values,
stringify, keep those that are non-blank after stripping, and join the
sorted distinct values with "; " (`None` when nothing remains). -/
def join_unique (cells : List Cell) : Cell :=
  let vals := ((cells.filter (fun c => !(c == Cell.na))).map cellStr).filter
    (fun v => !((pyStrip v).isEmpty))
  if vals.isEmpty then Cell.na else Cell.str (String.intercalate "; " (sortedDedup vals))

/-- Cells of one column over a list of rows. -/
def colCells (rows : List Row) (c : String) : List Cell :=
  rows.map (fun r => (Row.get r c).getD Cell.na)

/-- One aggregated record (src/app.py:151-161): for the rows of one key,
sum DPP and PPN, take the first non-missing CUSTOMER (and VOUCHER_NO when
present), and `join_unique` the FP_STATUS values. -/
def aggGroup (hasVN : Bool) (k : String) (group : List Row) : Row :=
  [("NO_VOUCHER", Cell.str k),
   ("DPP", Cell.num ((colCells group "DPP").map qOfCell).sum),
   ("PPN", Cell.num ((colCells group "PPN").map qOfCell).sum),
   ("CUSTOMER", (firstNonNA (colCells group "CUSTOMER")).getD Cell.na),
   ("FP_STATUS", join_unique (colCells group "FP_STATUS"))]
  ++ (if hasVN then [("VOUCHER_NO", (firstNonNA (colCells group "VOUCHER_NO")).getD Cell.na)] else [])

/-- Model of `groupby("NO_VOUCHER", as_index=False).agg(agg_map)`
(src/app.py:161): one row per distinct key (pandas emits keys sorted), each
group aggregated by `aggGroup`; intra-group row order is the input order. -/
def aggregateCombined (df : DF) : DF :=
  let hasVN := "VOUCHER_NO" ∈ df.cols
  { cols := ["NO_VOUCHER", "DPP", "PPN", "CUSTOMER", "FP_STATUS"]
      ++ (if hasVN then ["VOUCHER_NO"] else []),
    rows := (sortedDedup (df.rows.map keyStr)).map
      (fun k => aggGroup hasVN k (df.rows.filter (fun r => keyStr r == k))) }

/-- The ledger key column (src/app.py:164-165): apply the extractor to the
`Description` cell, then `astype(str).str.strip()` (Python `None` renders as
"None"). -/
def fakturKeyCell (r : Row) : Cell :=
  Cell.str (pyStrip (pyOptStr (extract_no_faktur_from_description
    ((Row.get r "Description").getD Cell.na))))

/-- The left outer merge of step 10 (src/app.py:177-184): each ledger row is
kept in order; matching aggregated rows (by key-cell equality) contribute
their columns, a miss contributes `NaN` columns; the `_merge` indicator
records `both` / `left_only`. -/
def mergeLedgerAgg (k3rows : List Row) (agg : DF) : List Row :=
  k3rows.flatMap (fun r =>
    if (agg.rows.filter (fun mm => ((Row.get mm "NO_VOUCHER").getD Cell.na)
        == ((Row.get r "No Faktur (key)").getD Cell.na))).isEmpty then
      [r ++ agg.cols.map (fun c => (c, Cell.na)) ++ [("_merge", Cell.str "left_only")]]
    else
      (agg.rows.filter (fun mm => ((Row.get mm "NO_VOUCHER").getD Cell.na)
        == ((Row.get r "No Faktur (key)").getD Cell.na))).map
        (fun mm => r ++ agg.cols.map (fun c => (c, (Row.get mm c).getD Cell.na))
          ++ [("_merge", Cell.str "both")]))

/-- Steps 11-12 on one merged row (src/app.py:186-200): coerce debit and
credit to numbers with 0 for misses, `K3_NET` is their difference, coerce
and zero-fill DPP and PPN, `Difference = K3_NET - (DPP + PPN)`, copy
`FP_STATUS` into the remark column and `CUSTOMER` into `Customer`, then
override both on rows whose `_merge` is not "both". -/
def computeRowDerived (r : Row) : Row :=
  let d := (toNumericCoerce ((Row.get r "Debit Amount").getD Cell.na)).getD 0
  let c := (toNumericCoerce ((Row.get r "Credit Amount").getD Cell.na)).getD 0
  let dpp := (toNumericCoerce ((Row.get r "DPP").getD Cell.na)).getD 0
  let ppn := (toNumericCoerce ((Row.get r "PPN").getD Cell.na)).getD 0
  let isBoth := (Row.get r "_merge").getD Cell.na == Cell.str "both"
  let r1 := setCol r "Debit Amount" (Cell.num d)
  let r2 := setCol r1 "Credit Amount" (Cell.num c)
  let r3 := setCol r2 "K3_NET" (Cell.num (d - c))
  let r4 := setCol r3 "DPP" (Cell.num dpp)
  let r5 := setCol r4 "PPN" (Cell.num ppn)
  let r6 := setCol r5 "Difference" (Cell.num ((d - c) - (dpp + ppn)))
  let r7 := setCol r6 "Keterangan (Digunggung/Tidak Digunngung)"
    (if isBoth then (Row.get r "FP_STATUS").getD Cell.na else Cell.str "Tidak ada di Coretax")
  setCol r7 "Customer" (if isBoth then (Row.get r "CUSTOMER").getD Cell.na else Cell.na)

/-- Step 12b (src/app.py:211-223): when the prepared second export carries a
`NO_FP_MODIF` column, left-merge it in by key (its key column arrives under
the `_from_coretax2` suffix, duplicate keys fan rows out); otherwise the
column is set to `None`. -/
def mergeNoFpModif (merged : List Row) (ct2 : DF) : List Row :=
  if "NO_FP_MODIF" ∈ ct2.cols then
    merged.flatMap (fun r =>
      if (ct2.rows.filter (fun mm => ((Row.get mm "NO_VOUCHER").getD Cell.na)
          == ((Row.get r "No Faktur (key)").getD Cell.na))).isEmpty then
        [r ++ [("NO_VOUCHER_from_coretax2", Cell.na), ("NO_FP_MODIF", Cell.na)]]
      else
        (ct2.rows.filter (fun mm => ((Row.get mm "NO_VOUCHER").getD Cell.na)
          == ((Row.get r "No Faktur (key)").getD Cell.na))).map
          (fun mm => r ++ [("NO_VOUCHER_from_coretax2", (Row.get mm "NO_VOUCHER").getD Cell.na),
            ("NO_FP_MODIF", (Row.get mm "NO_FP_MODIF").getD Cell.na)]))
  else merged.map (fun r => setCol r "NO_FP_MODIF" Cell.na)

/-- Step 13 on one row (src/app.py:230): `merged.fillna("-")` replaces every
missing cell by the string "-". -/
def fillRow (r : Row) : Row :=
  r.map (fun p => (p.1, if p.2 = Cell.na then Cell.str "-" else p.2))

/-- Report layout (src/app.py:250-268): the column written to each of the
report cells 1-10 and 12-18 (cell 11 is left cleared and not modelled). -/
def reportCols : List String :=
  ["Account No", "Account Name", "Date", "Voucher Category", "Voucher No.", "Description",
   "Debit Amount", "Credit Amount", "Direction", "Balance",
   "NO_VOUCHER", "NO_FP_MODIF", "DPP", "PPN", "Difference", "Customer",
   "Keterangan (Digunggung/Tidak Digunngung)"]

/-- Projection of one merged row onto the report cells: `row.get(name)`,
`none` (a blank cell) when the column is absent. -/
def projectRow (r : Row) : List (Option Cell) :=
  reportCols.map (Row.get r)

/-- Ledger columns the code indexes with `df[...]` (src/app.py:164,187,188);
a ledger without them raises a `KeyError`. -/
def k3RequiredCols : List String :=
  ["Description", "Debit Amount", "Credit Amount"]

/-- Ledger columns that collide with tax-side columns of the merge.  For
`DPP`, `PPN`, `CUSTOMER`, `FP_STATUS` and `_merge` the code crashes (pandas
suffixes the collision and the later `merged[...]` lookup raises); for
`NO_VOUCHER`, `VOUCHER_NO` and `NO_FP_MODIF` pandas would silently suffix —
that corner is kept outside the modelled domain and mapped to the same
error. -/
def k3ForbiddenCols : List String :=
  ["DPP", "PPN", "CUSTOMER", "FP_STATUS", "_merge", "NO_VOUCHER", "VOUCHER_NO", "NO_FP_MODIF"]

/-- The merged result of `compare_files` just before `fillna("-")`
(src/app.py:83-223): prepare both tax exports, aggregate their
concatenation, key the ledger, left-merge, derive the computed columns, and
merge or default `NO_FP_MODIF`. -/
def buildMerged (k3 ct1 ct2 : DF) : Except String (List Row) := do
  let c1 ← prepCoretax1 ct1
  let c2 ← prepCoretax2 ct2
  if k3RequiredCols.all (· ∈ k3.cols) && k3ForbiddenCols.all (· ∉ k3.cols) then
    let agg := aggregateCombined (concatCombined c1 c2)
    let k3rows := (DF.materialize k3).rows.map (fun r => setCol r "No Faktur (key)" (fakturKeyCell r))
    let m1 := mergeLedgerAgg k3rows agg
    Except.ok (mergeNoFpModif (m1.map computeRowDerived) c2)
  else Except.error "k3: required ledger column missing or reserved column present"

/-- The aggregated tax records alone (through src/app.py:161), for stating
aggregation-level properties. -/
def buildAgg (ct1 ct2 : DF) : Except String DF := do
  let c1 ← prepCoretax1 ct1
  let c2 ← prepCoretax2 ct2
  Except.ok (aggregateCombined (concatCombined c1 c2))

/-- The computational core of `compare_files` (src/app.py:83-268), file i/o
aside: the merged rows after `fillna("-")`, plus their projection onto the
report cells. -/
def compare_files (k3 ct1 ct2 : DF) : Except String (List Row × List (List (Option Cell))) := do
  let m ← buildMerged k3 ct1 ct2
  let f := m.map fillRow
  Except.ok (f, f.map projectRow)

/-- Character class of normalized column names: uppercase A-Z, digit, or
underscore. -/
def goodChar (c : Char) : Bool :=
  isAlnumUp c || c == '_'

/-- Columns a merged row can carry besides the original ledger columns:
the ledger key column, the aggregated tax columns, the merge indicator, the
derived columns, and the second-merge columns. -/
def pipelineCols : List String :=
  ["No Faktur (key)", "NO_VOUCHER", "DPP", "PPN", "CUSTOMER", "FP_STATUS", "VOUCHER_NO",
   "_merge", "K3_NET", "Difference", "Keterangan (Digunggung/Tidak Digunngung)", "Customer",
   "NO_VOUCHER_from_coretax2", "NO_FP_MODIF"]

/-- Merged row used in the spec's variance example: debit 1000000, credit 0,
matched against tax base 900000 and tax amount 100000. -/
def exampleRow : Row :=
  [("Debit Amount", Cell.num 1000000), ("Credit Amount", Cell.num 0),
   ("DPP", Cell.num 900000), ("PPN", Cell.num 100000), ("_merge", Cell.str "both")]

/-- Concrete ledger for the witnesses: the end-to-end scenario of spec §8
(three rows, keys A1, A2, A1). -/
def eK3 : DF :=
  ⟨["Description", "Debit Amount", "Credit Amount"],
   [[("Description", Cell.str "x/A1/y"), ("Debit Amount", Cell.num 550), ("Credit Amount", Cell.num 0)],
    [("Description", Cell.str "x/A2/y"), ("Debit Amount", Cell.num 330), ("Credit Amount", Cell.num 0)],
    [("Description", Cell.str "x/A1/z"), ("Debit Amount", Cell.num 550), ("Credit Amount", Cell.num 0)]]⟩

/-- Concrete first tax export: one row for key A1 (base 500, tax 50). -/
def eC1 : DF :=
  ⟨["NO_VOUCHER", "DPP", "PPN"],
   [[("NO_VOUCHER", Cell.str "A1"), ("DPP", Cell.num 500), ("PPN", Cell.num 50)]]⟩

/-- Concrete second tax export: one row for key A2 (base 300, tax 30), no
`NO_FP_MODIF` column. -/
def eC2 : DF :=
  ⟨["NO_VOUCHER", "DPP", "PPN"],
   [[("NO_VOUCHER", Cell.str "A2"), ("DPP", Cell.num 300), ("PPN", Cell.num 30)]]⟩

/-- Concrete ledger with a single row whose extracted key is K1. -/
def cxK3 : DF :=
  ⟨["Description", "Debit Amount", "Credit Amount"],
   [[("Description", Cell.str "INV/K1/x"), ("Debit Amount", Cell.num 10), ("Credit Amount", Cell.num 0)]]⟩

/-- Concrete first tax export with an unrelated key. -/
def cxC1 : DF :=
  ⟨["NO_VOUCHER"], [[("NO_VOUCHER", Cell.str "K9")]]⟩

/-- Concrete second tax export carrying a `NO_FP_MODIF` column and two rows
with the same key K1. -/
def cxC2 : DF :=
  ⟨["NO_VOUCHER", "NO_FP_MODIF"],
   [[("NO_VOUCHER", Cell.str "K1"), ("NO_FP_MODIF", Cell.str "a")],
    [("NO_VOUCHER", Cell.str "K1"), ("NO_FP_MODIF", Cell.str "b")]]⟩

/-- Concrete first tax export whose single row has a blank (whitespace-only)
voucher number. -/
def blankKeyC1 : DF :=
  ⟨["NO_VOUCHER"], [[("NO_VOUCHER", Cell.str "  ")]]⟩

/-- Concrete tax export with no voucher/document-number column at all. -/
def noKeyCt : DF :=
  ⟨["FOO"], [[("FOO", Cell.str "x")]]⟩

/-- Concrete ledger carrying a duplicate "Voucher No." column (as pandas
mangles the second occurrence on read: "Voucher No..1") and no
"Account No" column. -/
def dupVoucherK3 : DF :=
  ⟨["Voucher No.", "Voucher No..1", "Description", "Debit Amount", "Credit Amount"],
   [[("Voucher No.", Cell.str "V1"), ("Voucher No..1", Cell.str "V2"),
     ("Description", Cell.str "INV/K1/x"), ("Debit Amount", Cell.num 10), ("Credit Amount", Cell.num 0)]]⟩

/-- Concrete ledger whose single row matches nothing (key ZZ) and which has
no "Balance" (nor "Account No") column; debit 100, credit 0. -/
def unmatchedK3 : DF :=
  ⟨["Description", "Debit Amount", "Credit Amount"],
   [[("Description", Cell.str "INV/ZZ/x"), ("Debit Amount", Cell.num 100), ("Credit Amount", Cell.num 0)]]⟩

/-- Canonical tax rows used by the aggregation witness. -/
def aggRow1 : Row :=
  [("DPP", Cell.num 1), ("PPN", Cell.num 10), ("CUSTOMER", Cell.na),
   ("FP_STATUS", Cell.str "FP Digunggung")]

/-- Second canonical tax row used by the aggregation witness. -/
def aggRow2 : Row :=
  [("DPP", Cell.num 2), ("PPN", Cell.num 20), ("CUSTOMER", Cell.str "Acme"),
   ("FP_STATUS", Cell.str "FP Tidak Digunggung")]

/-- One order of the witness group. -/
def aggRowsA : List Row := [aggRow1, aggRow2]

/-- The other order of the witness group. -/
def aggRowsB : List Row := [aggRow2, aggRow1]

/-- The single merged row produced by `buildMerged unmatchedK3 cxC1 cxC2`
(an unmatched ledger row), written out for the unmatched-policy witness. -/
def c6row : Row :=
  [("Description", Cell.str "INV/ZZ/x"),
   ("Debit Amount", Cell.num 100),
   ("Credit Amount", Cell.num 0),
   ("No Faktur (key)", Cell.str "ZZ"),
   ("NO_VOUCHER", Cell.na),
   ("DPP", Cell.num 0),
   ("PPN", Cell.num 0),
   ("CUSTOMER", Cell.na),
   ("FP_STATUS", Cell.na),
   ("_merge", Cell.str "left_only"),
   ("K3_NET", Cell.num 100),
   ("Difference", Cell.num 100),
   ("Keterangan (Digunggung/Tidak Digunngung)", Cell.str "Tidak ada di Coretax"),
   ("Customer", Cell.na),
   ("NO_VOUCHER_from_coretax2", Cell.na),
   ("NO_FP_MODIF", Cell.na)]

def c7row0 : Row :=
  [("NO_VOUCHER", Cell.str ""), ("DPP", Cell.num 0), ("PPN", Cell.num 0),
   ("CUSTOMER", Cell.na), ("FP_STATUS", Cell.str "FP Digunggung")]

def c7row1 : Row :=
  [("NO_VOUCHER", Cell.str "K1"), ("DPP", Cell.num 0), ("PPN", Cell.num 0),
   ("CUSTOMER", Cell.na), ("FP_STATUS", Cell.str "FP Tidak Digunggung")]

def c7agg : DF :=
  ⟨["NO_VOUCHER", "DPP", "PPN", "CUSTOMER", "FP_STATUS"], [c7row0, c7row1]⟩

def c10row : Row :=
  [("Description", Cell.str "INV/ZZ/x"),
   ("Debit Amount", Cell.num 100),
   ("Credit Amount", Cell.num 0),
   ("No Faktur (key)", Cell.str "ZZ"),
   ("NO_VOUCHER", Cell.str "-"),
   ("DPP", Cell.num 0),
   ("PPN", Cell.num 0),
   ("CUSTOMER", Cell.str "-"),
   ("FP_STATUS", Cell.str "-"),
   ("_merge", Cell.str "left_only"),
   ("K3_NET", Cell.num 100),
   ("Difference", Cell.num 100),
   ("Keterangan (Digunggung/Tidak Digunngung)", Cell.str "Tidak ada di Coretax"),
   ("Customer", Cell.str "-"),
   ("NO_VOUCHER_from_coretax2", Cell.str "-"),
   ("NO_FP_MODIF", Cell.str "-")]

/-! ### Row lookup toolbox -/

theorem keys_cons (a : String) (w : Cell) (t : Row) :
    Row.keys ((a, w) :: t) = a :: Row.keys t := rfl

theorem lookup_cons_ne {k a : String} {v : Cell} {t : Row} (h : k ≠ a) :
    List.lookup k ((a, v) :: t) = List.lookup k t := by
  rw [List.lookup_cons, show (k == a) = false from beq_false_of_ne h]

theorem get_eq_none {r : Row} {k : String} (h : k ∉ Row.keys r) : Row.get r k = none := by
  rw [Row.get, List.lookup_eq_none_iff]
  intro p hp
  simp only [bne_iff_ne, ne_eq]
  intro he
  exact h (he ▸ List.mem_map_of_mem Prod.fst hp)

theorem get_append {r₁ r₂ : Row} {k : String} :
    Row.get (r₁ ++ r₂) k = (Row.get r₁ k).or (Row.get r₂ k) :=
  List.lookup_append

theorem get_append_left {r₁ r₂ : Row} {k : String} {v : Cell} (h : Row.get r₁ k = some v) :
    Row.get (r₁ ++ r₂) k = some v := by
  rw [get_append, h]; rfl

theorem get_append_right {r₁ r₂ : Row} {k : String} (h : k ∉ Row.keys r₁) :
    Row.get (r₁ ++ r₂) k = Row.get r₂ k := by
  rw [get_append, get_eq_none h]; rfl

theorem lookup_replace_self {r : Row} {k : String} (v : Cell) (h : k ∈ Row.keys r) :
    List.lookup k (r.map (fun p => if p.1 = k then (k, v) else p)) = some v := by
  induction r with
  | nil => simp [Row.keys] at h
  | cons p t ih =>
    rcases p with ⟨a, w⟩
    by_cases ha : a = k
    · subst ha
      simp
    · have h' : k ∈ Row.keys t := by
        rw [keys_cons] at h
        rcases List.mem_cons.mp h with h1 | h2
        · exact absurd h1.symm ha
        · exact h2
      simp only [List.map_cons, if_neg ha]
      rw [lookup_cons_ne (fun he => ha he.symm)]
      exact ih h'

theorem lookup_replace_ne {r : Row} {k k' : String} (v : Cell) (h : k' ≠ k) :
    List.lookup k' (r.map (fun p => if p.1 = k then (k, v) else p)) = List.lookup k' r := by
  induction r with
  | nil => simp
  | cons p t ih =>
    rcases p with ⟨a, w⟩
    by_cases ha : a = k
    · subst ha
      simp only [List.map_cons]
      rw [if_pos trivial]
      rw [lookup_cons_ne h, lookup_cons_ne h]
      exact ih
    · simp only [List.map_cons, if_neg ha]
      by_cases hk : k' = a
      · subst hk
        rw [List.lookup_cons_self, List.lookup_cons_self]
      · rw [lookup_cons_ne hk, lookup_cons_ne hk]
        exact ih

theorem get_setCol_self (r : Row) (k : String) (v : Cell) :
    Row.get (setCol r k v) k = some v := by
  unfold setCol; split
  · exact lookup_replace_self v (by assumption)
  · next h =>
    rw [Row.get, List.lookup_append,
      show List.lookup k r = none from get_eq_none h]
    simp [List.lookup]

theorem get_setCol_ne (r : Row) (k k' : String) (v : Cell) (h : k' ≠ k) :
    Row.get (setCol r k v) k' = Row.get r k' := by
  unfold setCol; split
  · exact lookup_replace_ne v h
  · rw [Row.get, List.lookup_append]
    rw [show List.lookup k' [(k, v)] = none by
      rw [List.lookup_cons, show (k' == k) = false from beq_false_of_ne h]; rfl]
    exact Option.or_none

theorem keys_setCol_sub (r : Row) (k : String) (v : Cell) :
    ∀ x ∈ Row.keys (setCol r k v), x ∈ Row.keys r ∨ x = k := by
  unfold setCol; split
  · intro x hx
    simp only [Row.keys, List.map_map, List.mem_map, Function.comp] at hx
    obtain ⟨p, hp, he⟩ := hx
    by_cases hc : p.1 = k
    · right; rw [← he]; simp [hc]
    · left
      rw [← he]; simp only [if_neg hc]
      exact List.mem_map_of_mem Prod.fst hp
  · intro x hx
    simp only [Row.keys, List.map_append, List.mem_append] at hx
    rcases hx with h1 | h2
    · exact Or.inl h1
    · right; simpa using h2

theorem keys_fillRow (r : Row) : Row.keys (fillRow r) = Row.keys r := by
  simp only [fillRow, Row.keys, List.map_map]
  rfl

theorem get_fillRow (r : Row) (k : String) :
    Row.get (fillRow r) k
      = (Row.get r k).map (fun v => if v = Cell.na then Cell.str "-" else v) := by
  induction r with
  | nil => rfl
  | cons p t ih =>
    rcases p with ⟨a, w⟩
    by_cases hk : k = a
    · subst hk
      show List.lookup k ((k, if w = Cell.na then Cell.str "-" else w) :: fillRow t) = _
      rw [List.lookup_cons_self, Row.get, List.lookup_cons_self]
      rfl
    · show List.lookup k ((a, if w = Cell.na then Cell.str "-" else w) :: fillRow t) = _
      rw [lookup_cons_ne hk, Row.get, lookup_cons_ne hk]
      exact ih

theorem lookup_map_pair {cols : List String} {g : String → Cell} {k : String} (h : k ∈ cols) :
    List.lookup k (cols.map (fun c => (c, g c))) = some (g k) := by
  induction cols with
  | nil => simp at h
  | cons a t ih =>
    by_cases ha : k = a
    · subst ha; simp only [List.map_cons]; exact List.lookup_cons_self
    · rcases List.mem_cons.mp h with h1 | h2
      · exact absurd h1 ha
      · simp only [List.map_cons]
        rw [lookup_cons_ne ha]
        exact ih h2

theorem lookup_map_pair_none {cols : List String} {g : String → Cell} {k : String}
    (h : k ∉ cols) : List.lookup k (cols.map (fun c => (c, g c))) = none := by
  apply get_eq_none
  intro hx
  simp only [Row.keys, List.map_map, List.mem_map, Function.comp] at hx
  obtain ⟨c, hc, he⟩ := hx
  exact h (he ▸ hc)

/-! ### Claim C3: the locale-aware numeric parser -/

/-- C3: the numeric parser treats "." as a thousands separator, "," as the
decimal separator, and surrounding parentheses as negation
(`parse "77.597.727" = 77597727`, `parse "1.234,56" = 1234.56`,
`parse "(123)" = -123`); already-numeric cells pass through as their
floating value; empty or missing input yields the not-a-number result
(`none`).  The parser is a total Lean function, modelling that the Python
function never raises (its `float` call is wrapped in try/except). -/
theorem C3_numeric_parse :
    (∀ q : ℚ, _parse_id_number (Cell.num q) = some q) ∧
    _parse_id_number (Cell.str "77.597.727") = some 77597727 ∧
    _parse_id_number (Cell.str "1.234,56") = some (123456 / 100) ∧
    _parse_id_number (Cell.str "(123)") = some (-123) ∧
    _parse_id_number (Cell.str "") = none ∧
    _parse_id_number Cell.na = none := by
  refine ⟨fun q => rfl, ?_, ?_, ?_, by with_unfolding_all rfl, rfl⟩ <;> with_unfolding_all rfl

/-! ### Claim C5: net and variance computation -/

/-- C5: for every merged row, the computed `K3_NET` equals the coerced debit
amount minus the coerced credit amount (a missing or unparseable amount
counting as 0), and `Difference` equals that net minus the sum of the
zero-filled `DPP` and `PPN`; no rounding is applied (the arithmetic is exact
on `ℚ`).  In particular the spec's example row (debit 1000000, credit 0, tax
base 900000, tax amount 100000) has variance exactly 0. -/
theorem C5_variance :
    (∀ r : Row,
      Row.get (computeRowDerived r) "K3_NET"
        = some (Cell.num ((toNumericCoerce ((Row.get r "Debit Amount").getD Cell.na)).getD 0
            - (toNumericCoerce ((Row.get r "Credit Amount").getD Cell.na)).getD 0)) ∧
      Row.get (computeRowDerived r) "Difference"
        = some (Cell.num (((toNumericCoerce ((Row.get r "Debit Amount").getD Cell.na)).getD 0
            - (toNumericCoerce ((Row.get r "Credit Amount").getD Cell.na)).getD 0)
          - ((toNumericCoerce ((Row.get r "DPP").getD Cell.na)).getD 0
            + (toNumericCoerce ((Row.get r "PPN").getD Cell.na)).getD 0)))) ∧
    Row.get (computeRowDerived exampleRow) "Difference" = some (Cell.num 0) := by
  refine ⟨fun r => ⟨?_, ?_⟩, by with_unfolding_all rfl⟩
  · simp only [computeRowDerived]
    rw [get_setCol_ne _ _ _ _ (by decide), get_setCol_ne _ _ _ _ (by decide),
      get_setCol_ne _ _ _ _ (by decide), get_setCol_ne _ _ _ _ (by decide),
      get_setCol_ne _ _ _ _ (by decide), get_setCol_self]
  · simp only [computeRowDerived]
    rw [get_setCol_ne _ _ _ _ (by decide), get_setCol_ne _ _ _ _ (by decide),
      get_setCol_self]

/-! ### Split / strip interaction lemmas (for the key extractor) -/

theorem rdropWhile_cons_neg {α : Type} (p : α → Bool) (c : α) (r : List α) (h : ¬ p c) :
    List.rdropWhile p (c :: r) = c :: List.rdropWhile p r := by
  simp only [List.rdropWhile]
  rw [List.reverse_cons, List.dropWhile_append]
  rcases hd : r.reverse.dropWhile p with _ | ⟨x, xs⟩
  · simp [List.dropWhile_cons_of_neg h]
  · simp

theorem rdropWhile_append_ne_nil {α : Type} (p : α → Bool) (X Y : List α)
    (h : List.rdropWhile p Y ≠ []) :
    List.rdropWhile p (X ++ Y) = X ++ List.rdropWhile p Y := by
  simp only [List.rdropWhile] at *
  rw [List.reverse_append, List.dropWhile_append]
  have he : (Y.reverse.dropWhile p).isEmpty = false := by
    rcases hd : Y.reverse.dropWhile p with _ | ⟨x, xs⟩
    · rw [hd] at h; simp at h
    · rfl
  rw [if_neg (by simp [he])]
  simp

theorem not_of_dropWhile_head {α : Type} (p : α → Bool) (l : List α) {c : α} {r : List α}
    (hd : l.dropWhile p = c :: r) : ¬ p c := by
  induction l with
  | nil => simp at hd
  | cons a t ih =>
    rw [List.dropWhile_cons] at hd
    by_cases ha : p a
    · rw [if_pos ha] at hd; exact ih hd
    · rw [if_neg ha] at hd
      injection hd with h1 h2
      exact h1 ▸ ha

theorem dropWhile_rdropWhile_comm {α : Type} (p : α → Bool) (l : List α) :
    List.dropWhile p (List.rdropWhile p l) = List.rdropWhile p (List.dropWhile p l) := by
  by_cases hall : l.dropWhile p = []
  · have h1 : List.rdropWhile p l = [] :=
      List.rdropWhile_eq_nil_iff.mpr (List.dropWhile_eq_nil_iff.mp hall)
    rw [hall, h1]
    simp [List.rdropWhile]
  · obtain ⟨c, r, hd⟩ : ∃ c r, l.dropWhile p = c :: r := by
      rcases hdd : l.dropWhile p with _ | ⟨c, r⟩
      · exact absurd hdd hall
      · exact ⟨c, r, rfl⟩
    have hc : ¬ p c := not_of_dropWhile_head p l hd
    have hw : ∀ x ∈ l.takeWhile p, p x = true := fun x hx => List.mem_takeWhile_imp hx
    have hL : l = l.takeWhile p ++ (c :: r) := by rw [← hd, List.takeWhile_append_dropWhile]
    rw [hd, rdropWhile_cons_neg p c r hc]
    conv_lhs => rw [hL]
    rw [rdropWhile_append_ne_nil p _ (c :: r) (by rw [rdropWhile_cons_neg p c r hc]; simp),
      rdropWhile_cons_neg p c r hc, List.dropWhile_append_of_pos hw,
      List.dropWhile_cons_of_neg hc]

theorem trimChars_cons_ws {a : Char} {l : List Char} (h : isWs a = true) :
    trimChars (a :: l) = trimChars l := by
  unfold trimChars
  rw [List.dropWhile_cons_of_pos h]

theorem trimChars_concat_ws {a : Char} {l : List Char} (h : isWs a = true) :
    trimChars (l ++ [a]) = trimChars l := by
  unfold trimChars
  rw [← dropWhile_rdropWhile_comm, List.rdropWhile_concat_pos _ _ a h,
    dropWhile_rdropWhile_comm]

theorem splitOnChar_ne_nil (c : Char) (l : List Char) : splitOnChar c l ≠ [] := by
  induction l with
  | nil => simp [splitOnChar]
  | cons a t ih =>
    unfold splitOnChar
    by_cases ha : a = c
    · simp [ha]
    · rw [if_neg ha]
      rcases hs : splitOnChar c t with _ | ⟨s, ss⟩
      · exact absurd hs ih
      · simp

theorem mapTrim_split_dropWhile (c : Char) (hc : isWs c = false) (l : List Char) :
    (splitOnChar c (List.dropWhile isWs l)).map trimChars = (splitOnChar c l).map trimChars := by
  induction l with
  | nil => rfl
  | cons a t ih =>
    by_cases hw : isWs a
    · have hac : ¬ a = c := fun he => by rw [he, hc] at hw; exact Bool.noConfusion hw
      rcases hs : splitOnChar c t with _ | ⟨s, ss⟩
      · exact absurd hs (splitOnChar_ne_nil c t)
      · rw [List.dropWhile_cons_of_pos hw, ih, hs,
          show splitOnChar c (a :: t) = (a :: s) :: ss from by
            unfold splitOnChar; rw [if_neg hac, hs],
          List.map_cons, List.map_cons, trimChars_cons_ws hw]
    · rw [List.dropWhile_cons_of_neg hw]

theorem splitOnChar_concat {c a : Char} (hac : ¬ a = c) (l : List Char) :
    ∃ ss s, splitOnChar c l = ss ++ [s] ∧ splitOnChar c (l ++ [a]) = ss ++ [s ++ [a]] := by
  induction l with
  | nil =>
    refine ⟨[], [], rfl, ?_⟩
    show splitOnChar c [a] = [[a]]
    simp [splitOnChar, hac]
  | cons b t ih =>
    obtain ⟨ss, s, h1, h2⟩ := ih
    by_cases hb : b = c
    · refine ⟨[] :: ss, s, ?_, ?_⟩
      · show splitOnChar c (b :: t) = ([] :: ss) ++ [s]
        unfold splitOnChar
        rw [if_pos hb, h1]
        rfl
      · show splitOnChar c (b :: (t ++ [a])) = ([] :: ss) ++ [s ++ [a]]
        unfold splitOnChar
        rw [if_pos hb, h2]
        rfl
    · rcases ss with _ | ⟨s₀, ss₀⟩
      · refine ⟨[], b :: s, ?_, ?_⟩
        · show splitOnChar c (b :: t) = [b :: s]
          unfold splitOnChar
          rw [if_neg hb, show splitOnChar c t = s :: [] from by simpa using h1]
        · show splitOnChar c (b :: (t ++ [a])) = [(b :: s) ++ [a]]
          unfold splitOnChar
          rw [if_neg hb, show splitOnChar c (t ++ [a]) = (s ++ [a]) :: [] from by simpa using h2]
          rfl
      · refine ⟨(b :: s₀) :: ss₀, s, ?_, ?_⟩
        · show splitOnChar c (b :: t) = ((b :: s₀) :: ss₀) ++ [s]
          unfold splitOnChar
          rw [if_neg hb, show splitOnChar c t = s₀ :: (ss₀ ++ [s]) from by simpa using h1]
          rfl
        · show splitOnChar c (b :: (t ++ [a])) = ((b :: s₀) :: ss₀) ++ [s ++ [a]]
          unfold splitOnChar
          rw [if_neg hb, show splitOnChar c (t ++ [a]) = s₀ :: (ss₀ ++ [s ++ [a]]) from by
            simpa using h2]
          rfl

theorem mapTrim_split_rdropWhile (c : Char) (hc : isWs c = false) (l : List Char) :
    (splitOnChar c (List.rdropWhile isWs l)).map trimChars = (splitOnChar c l).map trimChars := by
  induction l using List.reverseRecOn with
  | nil => rfl
  | append_singleton l a ih =>
    by_cases hw : isWs a
    · have hac : ¬ a = c := fun he => by rw [he, hc] at hw; exact Bool.noConfusion hw
      rw [List.rdropWhile_concat_pos _ _ a hw, ih]
      obtain ⟨ss, s, h1, h2⟩ := splitOnChar_concat hac l
      rw [h1, h2]
      simp only [List.map_append, List.map_cons, List.map_nil]
      rw [trimChars_concat_ws hw]
    · rw [List.rdropWhile_concat_neg _ _ a hw]

theorem mapTrim_split_trimChars (c : Char) (hc : isWs c = false) (l : List Char) :
    (splitOnChar c (trimChars l)).map trimChars = (splitOnChar c l).map trimChars := by
  rw [show trimChars l = List.rdropWhile isWs (List.dropWhile isWs l) from rfl,
    mapTrim_split_rdropWhile c hc, mapTrim_split_dropWhile c hc]

/-! ### Claim C2: the key extractor -/

/-- C2: the key extractor agrees everywhere with the spec's contract
(`extractSpec`: split the description on "/", return the whitespace-trimmed
segment of index 1 when at least two segments exist and it is non-empty,
else no key; missing description gives no key) — the code's extra
`str.strip()` of the whole description before splitting is observationally
irrelevant — and it maps "INV/F-001/2024" to "F-001", "no-slash-here" to no
key, and a missing description to no key. -/
theorem C2_key_extractor :
    (∀ desc : Cell, extract_no_faktur_from_description desc = extractSpec desc) ∧
    extract_no_faktur_from_description (Cell.str "INV/F-001/2024") = some "F-001" ∧
    extract_no_faktur_from_description (Cell.str "no-slash-here") = none ∧
    extract_no_faktur_from_description Cell.na = none := by
  refine ⟨?_, by decide, by decide, rfl⟩
  intro desc
  cases desc with
  | na => rfl
  | str s =>
    show partsToKey _ = partsToKey _
    exact congrArg partsToKey (mapTrim_split_trimChars '/' (by decide) (cellStr (Cell.str s)).data)
  | num q =>
    show partsToKey _ = partsToKey _
    exact congrArg partsToKey (mapTrim_split_trimChars '/' (by decide) (cellStr (Cell.num q)).data)

/-! ### Claim C8: the column normalizer -/

theorem good_not_ws {c : Char} (h : goodChar c = true) : isWs c = false := by
  cases hb : isWs c with
  | false => rfl
  | true =>
    exfalso
    simp only [isWs, Bool.or_eq_true, beq_iff_eq] at hb
    rcases hb with ((((h1 | h1) | h1) | h1) | h1) | h1 <;> subst h1 <;>
      exact absurd h (by decide)

theorem good_up_id {c : Char} (h : goodChar c = true) : upChar c = c := by
  have h' := h
  simp only [goodChar, isAlnumUp, Bool.or_eq_true, Bool.and_eq_true, decide_eq_true_eq,
    beq_iff_eq] at h'
  unfold upChar
  rcases h' with (⟨h1, h2⟩ | ⟨h1, h2⟩) | h3
  · rw [if_neg]
    simp only [Bool.and_eq_true, decide_eq_true_eq, not_and]
    intro ha hz
    exact absurd (le_trans ha h2) (by decide)
  · rw [if_neg]
    simp only [Bool.and_eq_true, decide_eq_true_eq, not_and]
    intro ha hz
    exact absurd (le_trans ha h2) (by decide)
  · subst h3; decide

theorem map_id_of {α : Type} (f : α → α) (l : List α) (h : ∀ x ∈ l, f x = x) :
    l.map f = l := by
  induction l with
  | nil => rfl
  | cons a t ih =>
    rw [List.map_cons, h a (List.mem_cons_self a t), ih (fun x hx => h x (List.mem_cons_of_mem a hx))]

theorem repRunsAux_true_head (l : List Char) :
    ∀ x, (repRunsAux true l).head? = some x → isAlnumUp x = true := by
  induction l with
  | nil => intro x h; simp [repRunsAux] at h
  | cons a t ih =>
    intro x h
    by_cases ha : isAlnumUp a
    · rw [show repRunsAux true (a :: t) = a :: repRunsAux false t from by
        simp [repRunsAux, ha]] at h
      simp only [List.head?_cons, Option.some.injEq] at h
      exact h ▸ ha
    · rw [show repRunsAux true (a :: t) = repRunsAux true t from by
        simp [repRunsAux, ha]] at h
      exact ih x h

theorem repRunsAux_good (b : Bool) (l : List Char) :
    ∀ x ∈ repRunsAux b l, goodChar x = true := by
  induction l generalizing b with
  | nil => intro x h; simp [repRunsAux] at h
  | cons a t ih =>
    intro x h
    by_cases ha : isAlnumUp a
    · rw [show repRunsAux b (a :: t) = a :: repRunsAux false t from by
        simp [repRunsAux, ha]] at h
      rcases List.mem_cons.mp h with h1 | h2
      · subst h1; simp [goodChar, ha]
      · exact ih false x h2
    · cases b with
      | true =>
        rw [show repRunsAux true (a :: t) = repRunsAux true t from by
          simp [repRunsAux, ha]] at h
        exact ih true x h
      | false =>
        rw [show repRunsAux false (a :: t) = '_' :: repRunsAux true t from by
          simp [repRunsAux, ha]] at h
        rcases List.mem_cons.mp h with h1 | h2
        · subst h1; decide
        · exact ih true x h2

theorem repRunsAux_chain (b : Bool) (l : List Char) :
    List.Chain' (fun a b => a = '_' → b ≠ '_') (repRunsAux b l) := by
  induction l generalizing b with
  | nil => cases b <;> simp [repRunsAux]
  | cons a t ih =>
    by_cases ha : isAlnumUp a
    · rw [show repRunsAux b (a :: t) = a :: repRunsAux false t from by
        simp [repRunsAux, ha]]
      apply List.Chain'.cons' (ih false)
      intro y hy hau
      rw [hau] at ha
      exact absurd ha (by decide)
    · cases b with
      | true =>
        rw [show repRunsAux true (a :: t) = repRunsAux true t from by
          simp [repRunsAux, ha]]
        exact ih true
      | false =>
        rw [show repRunsAux false (a :: t) = '_' :: repRunsAux true t from by
          simp [repRunsAux, ha]]
        apply List.Chain'.cons' (ih true)
        intro y hy _
        have hy' := repRunsAux_true_head t y (Option.mem_def.mp hy)
        intro he
        rw [he] at hy'
        exact absurd hy' (by decide)

theorem repRunsAux_flag (l : List Char) (h : ∀ x, l.head? = some x → x ≠ '_')
    (hg : ∀ x ∈ l, goodChar x = true) :
    repRunsAux true l = repRunsAux false l := by
  cases l with
  | nil => rfl
  | cons a t =>
    have ha : isAlnumUp a = true := by
      have hgood := hg a (List.mem_cons_self a t)
      have hne := h a rfl
      simp only [goodChar, Bool.or_eq_true, beq_iff_eq] at hgood
      rcases hgood with h1 | h2
      · exact h1
      · exact absurd h2 hne
    simp [repRunsAux, ha]

theorem repRunsAux_id (l : List Char) (hg : ∀ x ∈ l, goodChar x = true)
    (hc : List.Chain' (fun a b => a = '_' → b ≠ '_') l) :
    repRunsAux false l = l := by
  induction l with
  | nil => rfl
  | cons a t ih =>
    have hgt : ∀ x ∈ t, goodChar x = true := fun x hx => hg x (List.mem_cons_of_mem a hx)
    have hct : List.Chain' (fun a b => a = '_' → b ≠ '_') t := List.Chain'.tail hc
    by_cases ha : isAlnumUp a
    · rw [show repRunsAux false (a :: t) = a :: repRunsAux false t from by
        simp [repRunsAux, ha], ih hgt hct]
    · have ha' : a = '_' := by
        have := hg a (List.mem_cons_self a t)
        simp only [goodChar, Bool.or_eq_true, beq_iff_eq] at this
        rcases this with h1 | h2
        · exact absurd h1 ha
        · exact h2
      have hh : ∀ x, t.head? = some x → x ≠ '_' := fun x hx hx' =>
        (List.chain'_cons'.mp hc).1 x (Option.mem_def.mpr hx) ha' hx'
      rw [show repRunsAux false (a :: t) = '_' :: repRunsAux true t from by
        simp [repRunsAux, ha], repRunsAux_flag t hh hgt, ih hgt hct, ← ha']

theorem repUndAux_flag (l : List Char) (h : ∀ x, l.head? = some x → x ≠ '_') :
    repUndAux true l = repUndAux false l := by
  cases l with
  | nil => rfl
  | cons a t =>
    have ha : ¬ a = '_' := h a rfl
    simp [repUndAux, ha]

theorem repUndAux_id (l : List Char)
    (hc : List.Chain' (fun a b => a = '_' → b ≠ '_') l) :
    repUndAux false l = l := by
  induction l with
  | nil => rfl
  | cons a t ih =>
    have hct : List.Chain' (fun a b => a = '_' → b ≠ '_') t := List.Chain'.tail hc
    by_cases ha : a = '_'
    · have hh : ∀ x, t.head? = some x → x ≠ '_' := fun x hx hx' =>
        (List.chain'_cons'.mp hc).1 x (Option.mem_def.mpr hx) ha hx'
      rw [show repUndAux false (a :: t) = '_' :: repUndAux true t from by
        simp [repUndAux, ha], repUndAux_flag t hh, ih hct, ← ha]
    · rw [show repUndAux false (a :: t) = a :: repUndAux false t from by
        simp [repUndAux, ha], ih hct]

theorem head?_of_isPrefix {α : Type} {l₁ l₂ : List α} (h : l₁ <+: l₂) {x : α}
    (hx : l₁.head? = some x) : l₂.head? = some x := by
  obtain ⟨t, rfl⟩ := h
  cases l₁ with
  | nil => simp at hx
  | cons a s => simpa using hx

theorem head?_dropWhile_ne {α : Type} (p : α → Bool) (l : List α) {x : α}
    (hx : (l.dropWhile p).head? = some x) : ¬ p x := by
  rcases hd : l.dropWhile p with _ | ⟨a, t⟩
  · rw [hd] at hx; simp at hx
  · rw [hd] at hx
    simp only [List.head?_cons, Option.some.injEq] at hx
    exact hx ▸ not_of_dropWhile_head p l hd

theorem stripChar_within (c : Char) (l : List Char) : stripChar c l <:+: l := by
  unfold stripChar
  exact List.IsInfix.trans
    ( List.IsPrefix.isInfix (List.rdropWhile_prefix _ _))
    ( List.IsSuffix.isInfix (List.dropWhile_suffix _))

theorem stripChar_head (c : Char) (l : List Char) (x : Char)
    (hx : (stripChar c l).head? = some x) : x ≠ c := by
  unfold stripChar at hx
  have h2 := head?_of_isPrefix (List.rdropWhile_prefix _ _) hx
  have h3 := head?_dropWhile_ne _ _ h2
  simpa using h3

theorem stripChar_last (c : Char) (l : List Char) (x : Char)
    (hx : (stripChar c l).getLast? = some x) : x ≠ c := by
  unfold stripChar at hx
  have hnil : List.rdropWhile (fun d => decide (d = c)) (List.dropWhile (fun d => decide (d = c)) l) ≠ [] := by
    intro h0
    rw [h0] at hx
    simp at hx
  have hlast := List.rdropWhile_last_not (fun d => decide (d = c))
    (List.dropWhile (fun d => decide (d = c)) l) hnil
  rw [List.getLast?_eq_getLast _ hnil] at hx
  simp only [Option.some.injEq] at hx
  intro he
  apply hlast
  simp only [decide_eq_true_eq]
  rw [hx, he]

theorem stripChar_id (c : Char) (l : List Char) (h1 : l.head? ≠ some c)
    (h2 : l.getLast? ≠ some c) : stripChar c l = l := by
  unfold stripChar
  have hd : List.dropWhile (fun d => decide (d = c)) l = l := by
    cases l with
    | nil => rfl
    | cons a t =>
      have ha : ¬ a = c := fun he => h1 (by rw [he]; rfl)
      exact List.dropWhile_cons_of_neg (by simpa using ha)
  rw [hd, List.rdropWhile_eq_self_iff.mpr]
  intro hl
  simp only [decide_eq_true_eq]
  intro he
  exact h2 (by rw [List.getLast?_eq_getLast l hl, he])

theorem cleanChars_canon (l : List Char) :
    (∀ x ∈ cleanChars l, goodChar x = true) ∧
    List.Chain' (fun a b => a = '_' → b ≠ '_') (cleanChars l) ∧
    (∀ x, (cleanChars l).head? = some x → x ≠ '_') ∧
    (∀ x, (cleanChars l).getLast? = some x → x ≠ '_') := by
  unfold cleanChars
  rw [repUndAux_id _ (repRunsAux_chain false ((trimChars l).map upChar))]
  refine ⟨?_, ?_, stripChar_head _ _, stripChar_last _ _⟩
  · intro x hx
    exact repRunsAux_good false _ x (List.IsInfix.subset (stripChar_within _ _) hx)
  · exact List.Chain'.infix (repRunsAux_chain false _) (stripChar_within _ _)

theorem cleanChars_id_of_canon (l : List Char)
    (h1 : ∀ x ∈ l, goodChar x = true)
    (h2 : List.Chain' (fun a b => a = '_' → b ≠ '_') l)
    (h3 : ∀ x, l.head? = some x → x ≠ '_')
    (h4 : ∀ x, l.getLast? = some x → x ≠ '_') :
    cleanChars l = l := by
  unfold cleanChars
  have ht : trimChars l = l := by
    unfold trimChars
    have hd : List.dropWhile isWs l = l := by
      cases l with
      | nil => rfl
      | cons a t =>
        exact List.dropWhile_cons_of_neg (by
          simp [good_not_ws (h1 a (List.mem_cons_self a t))])
    rw [hd, List.rdropWhile_eq_self_iff.mpr]
    intro hl
    simp [good_not_ws (h1 _ (List.getLast_mem hl))]
  rw [ht, map_id_of upChar l (fun x hx => good_up_id (h1 x hx)),
    repRunsAux_id l h1 h2, repUndAux_id l h2,
    stripChar_id '_' l (fun he => h3 '_' he rfl) (fun he => h4 '_' he rfl)]

/-- C8: the column normalizer's output consists only of uppercase
alphanumerics and underscores, never contains two adjacent underscores
(every maximal run of non-alphanumerics was collapsed to one), and neither
starts nor ends with an underscore; and the normalizer is idempotent:
`cleanCol (cleanCol s) = cleanCol s` for every string. -/
theorem C8_normalizer :
    ∀ s : String,
      cleanCol (cleanCol s) = cleanCol s ∧
      (∀ c ∈ (cleanCol s).data, goodChar c = true) ∧
      List.Chain' (fun a b => a = '_' → b ≠ '_') (cleanCol s).data ∧
      (cleanCol s).data.head? ≠ some '_' ∧
      (cleanCol s).data.getLast? ≠ some '_' := by
  intro s
  obtain ⟨hg, hch, hh, hl⟩ := cleanChars_canon s.data
  have hdata : (cleanCol s).data = cleanChars s.data := rfl
  refine ⟨?_, by rw [hdata]; exact hg, by rw [hdata]; exact hch,
    fun he => hh '_' (by rw [← hdata]; exact he) rfl,
    fun he => hl '_' (by rw [← hdata]; exact he) rfl⟩
  show String.mk (cleanChars (cleanCol s).data) = cleanCol s
  rw [hdata, cleanChars_id_of_canon _ hg hch hh hl]
  rfl

/-! ### Claim C4: aggregation by key -/

theorem isEmpty_eq_of_perm {α : Type} {l₁ l₂ : List α} (h : l₁.Perm l₂) :
    l₂.isEmpty = l₁.isEmpty := by
  rcases h1 : l₁ with _ | ⟨a, t⟩
  · rw [h1] at h
    rw [h.symm.eq_nil]
  · rcases h2 : l₂ with _ | ⟨b, u⟩
    · rw [h1, h2] at h
      exact (List.cons_ne_nil a t h.eq_nil).elim
    · rfl

theorem sortedDedup_perm {l₁ l₂ : List String} (h : l₁.Perm l₂) :
    sortedDedup l₁ = sortedDedup l₂ := by
  unfold sortedDedup
  refine List.eq_of_perm_of_sorted ?_ (List.sorted_insertionSort _ _)
    (List.sorted_insertionSort _ _)
  exact (List.perm_insertionSort _ _).trans (h.dedup.trans (List.perm_insertionSort _ _).symm)

theorem join_unique_perm {c₁ c₂ : List Cell} (h : c₁.Perm c₂) :
    join_unique c₁ = join_unique c₂ := by
  have hp : (((c₁.filter (fun c => !(c == Cell.na))).map cellStr).filter
      (fun v => !((pyStrip v).isEmpty))).Perm
      (((c₂.filter (fun c => !(c == Cell.na))).map cellStr).filter
      (fun v => !((pyStrip v).isEmpty))) :=
    ((h.filter _).map cellStr).filter _
  have hie := isEmpty_eq_of_perm hp
  have hs : sortedDedup (((c₂.filter (fun c => !(c == Cell.na))).map cellStr).filter
      (fun v => !((pyStrip v).isEmpty)))
      = sortedDedup (((c₁.filter (fun c => !(c == Cell.na))).map cellStr).filter
      (fun v => !((pyStrip v).isEmpty))) := (sortedDedup_perm hp).symm
  simp only [join_unique]
  rw [hie, hs]

theorem aggGroup_gets (hv : Bool) (k : String) (group : List Row) :
    Row.get (aggGroup hv k group) "NO_VOUCHER" = some (Cell.str k) ∧
    Row.get (aggGroup hv k group) "DPP"
      = some (Cell.num ((colCells group "DPP").map qOfCell).sum) ∧
    Row.get (aggGroup hv k group) "PPN"
      = some (Cell.num ((colCells group "PPN").map qOfCell).sum) ∧
    Row.get (aggGroup hv k group) "CUSTOMER"
      = some ((firstNonNA (colCells group "CUSTOMER")).getD Cell.na) ∧
    Row.get (aggGroup hv k group) "FP_STATUS"
      = some (join_unique (colCells group "FP_STATUS")) := by
  unfold aggGroup
  simp only [List.cons_append, List.nil_append]
  refine ⟨?_, ?_, ?_, ?_, ?_⟩
  · show List.lookup _ _ = _
    rw [List.lookup_cons_self]
  · show List.lookup _ _ = _
    rw [lookup_cons_ne (by decide), List.lookup_cons_self]
  · show List.lookup _ _ = _
    rw [lookup_cons_ne (by decide), lookup_cons_ne (by decide), List.lookup_cons_self]
  · show List.lookup _ _ = _
    rw [lookup_cons_ne (by decide), lookup_cons_ne (by decide), lookup_cons_ne (by decide),
      List.lookup_cons_self]
  · show List.lookup _ _ = _
    rw [lookup_cons_ne (by decide), lookup_cons_ne (by decide), lookup_cons_ne (by decide),
      lookup_cons_ne (by decide), List.lookup_cons_self]

/-- C4: for a multiset of canonical tax records sharing a key, the
aggregated record's DPP (tax base) and PPN (tax amount) are each the sum of
the rows' contributions in that column with missing values counting as 0,
the DPP, PPN and bundling-status aggregates are invariant under any
reordering of the rows (permutation), the counterparty is the first
non-missing contribution in first-seen order, and the bundling status is
the `join_unique` (sorted, de-duplicated, "; "-joined) union of the
contributed statuses. -/
theorem C4_aggregation (hv : Bool) (k : String) (l₁ l₂ : List Row) (hperm : l₁.Perm l₂) :
    Row.get (aggGroup hv k l₁) "DPP"
      = some (Cell.num ((colCells l₁ "DPP").map qOfCell).sum) ∧
    Row.get (aggGroup hv k l₁) "PPN"
      = some (Cell.num ((colCells l₁ "PPN").map qOfCell).sum) ∧
    Row.get (aggGroup hv k l₁) "DPP" = Row.get (aggGroup hv k l₂) "DPP" ∧
    Row.get (aggGroup hv k l₁) "PPN" = Row.get (aggGroup hv k l₂) "PPN" ∧
    Row.get (aggGroup hv k l₁) "FP_STATUS" = Row.get (aggGroup hv k l₂) "FP_STATUS" ∧
    Row.get (aggGroup hv k l₁) "CUSTOMER"
      = some ((firstNonNA (colCells l₁ "CUSTOMER")).getD Cell.na) ∧
    Row.get (aggGroup hv k l₁) "FP_STATUS"
      = some (join_unique (colCells l₁ "FP_STATUS")) := by
  obtain ⟨hn₁, hd₁, hp₁, hc₁, hf₁⟩ := aggGroup_gets hv k l₁
  obtain ⟨hn₂, hd₂, hp₂, hc₂, hf₂⟩ := aggGroup_gets hv k l₂
  have hcperm : ∀ c : String, (colCells l₁ c).Perm (colCells l₂ c) := fun c => hperm.map _
  refine ⟨hd₁, hp₁, ?_, ?_, ?_, hc₁, hf₁⟩
  · rw [hd₁, hd₂, ((hcperm "DPP").map qOfCell).sum_eq]
  · rw [hp₁, hp₂, ((hcperm "PPN").map qOfCell).sum_eq]
  · rw [hf₁, hf₂, join_unique_perm (hcperm "FP_STATUS")]

/-- Witness for C4 at a concrete two-row group in both orders: the DPP and
PPN sums are 3 and 30, and the aggregates agree across the reordering. -/
theorem C4_aggregation_witness :
    Row.get (aggGroup false "K" aggRowsA) "DPP" = Row.get (aggGroup false "K" aggRowsB) "DPP" ∧
    Row.get (aggGroup false "K" aggRowsA) "DPP" = some (Cell.num 3) ∧
    Row.get (aggGroup false "K" aggRowsA) "PPN" = some (Cell.num 30) ∧
    Row.get (aggGroup false "K" aggRowsA) "FP_STATUS"
      = Row.get (aggGroup false "K" aggRowsB) "FP_STATUS" := by
  have h := C4_aggregation false "K" aggRowsA aggRowsB (List.Perm.swap aggRow2 aggRow1 [])
  refine ⟨h.2.2.1, ?_, ?_, h.2.2.2.2.1⟩
  · rw [h.1]
    with_unfolding_all rfl
  · rw [h.2.1]
    with_unfolding_all rfl

/-! ### Pipeline structure lemmas -/

theorem keys_map_pair (cols : List String) (g : String → Cell) :
    Row.keys (cols.map (fun c => (c, g c))) = cols := by
  induction cols with
  | nil => rfl
  | cons a t ih => simp only [List.map_cons, keys_cons, ih]

theorem setColWith_cols_mem {df : DF} {k : String} {f : Row → Cell} {x : String}
    (h : x ∈ (DF.setColWith df k f).cols) : x ∈ df.cols ∨ x = k := by
  unfold DF.setColWith at h
  dsimp at h
  split at h
  · exact Or.inl h
  · rcases List.mem_append.mp h with h1 | h2
    · exact Or.inl h1
    · right; simpa using h2

theorem renameCol_cols_mem {df : DF} {old new x : String}
    (h : x ∈ (df.renameCol old new).cols) : x ∈ df.cols ∨ x = new := by
  unfold DF.renameCol at h
  dsimp at h
  obtain ⟨c, hc, he⟩ := List.mem_map.mp h
  by_cases h0 : c = old
  · right; rw [← he, if_pos h0]
  · left; rw [← he, if_neg h0]; exact hc

theorem renameDocNo_cols_mem {df : DF} {x : String}
    (h : x ∈ (renameDocNo df).cols) : x ∈ df.cols ∨ x = "NO_VOUCHER" := by
  unfold renameDocNo at h
  split at h
  · exact renameCol_cols_mem h
  · exact Or.inl h

theorem ite_setColWith_mem {d : DF} {k : String} {f : Row → Cell} {P : Prop}
    [Decidable P] {x : String}
    (h : x ∈ (if P then d.setColWith k f else d).cols) : x ∈ d.cols ∨ x = k := by
  split at h
  · exact setColWith_cols_mem h
  · exact Or.inl h

theorem harmonizeAmounts_cols_mem {df : DF} {x : String}
    (h : x ∈ (harmonizeAmounts df).cols) : x ∈ df.cols ∨ x = "DPP" ∨ x = "PPN" := by
  simp only [harmonizeAmounts] at h
  rcases ite_setColWith_mem h with h1 | h1
  · rcases ite_setColWith_mem h1 with h2 | h2
    · exact Or.inl h2
    · exact Or.inr (Or.inl h2)
  · exact Or.inr (Or.inr h1)

theorem setCustomer2_cols_mem {df : DF} {x : String}
    (h : x ∈ (setCustomer2 df).cols) : x ∈ df.cols ∨ x = "CUSTOMER" := by
  unfold setCustomer2 at h
  split at h
  · exact setColWith_cols_mem h
  · split at h
    · exact setColWith_cols_mem h
    · exact setColWith_cols_mem h

theorem cleanKeyAmounts_cols_mem {df : DF} {x : String}
    (h : x ∈ (cleanKeyAmounts df).cols) :
    x ∈ df.cols ∨ x = "NO_VOUCHER" ∨ x = "DPP" ∨ x = "PPN" := by
  simp only [cleanKeyAmounts] at h
  have peel : ∀ {d : DF}, x ∈ (if "PPN" ∈ d.cols then
      d.setColWith "PPN" (fun r => optCell (_parse_id_number ((Row.get r "PPN").getD Cell.na)))
      else d.setColWith "PPN" (fun _ => Cell.num 0)).cols → x ∈ d.cols ∨ x = "PPN" := by
    intro d hd
    split at hd
    · exact setColWith_cols_mem hd
    · exact setColWith_cols_mem hd
  rcases peel h with h1 | h1
  · have peel2 : ∀ {d : DF}, x ∈ (if "DPP" ∈ d.cols then
        d.setColWith "DPP" (fun r => optCell (_parse_id_number ((Row.get r "DPP").getD Cell.na)))
        else d.setColWith "DPP" (fun _ => Cell.num 0)).cols → x ∈ d.cols ∨ x = "DPP" := by
      intro d hd
      split at hd
      · exact setColWith_cols_mem hd
      · exact setColWith_cols_mem hd
    rcases peel2 h1 with h2 | h2
    · rcases setColWith_cols_mem h2 with h3 | h3
      · exact Or.inl h3
      · exact Or.inr (Or.inl h3)
    · exact Or.inr (Or.inr (Or.inl h2))
  · exact Or.inr (Or.inr (Or.inr h1))

theorem prepCoretax2_cols_mem {ct c2 : DF} {x : String}
    (hok : prepCoretax2 ct = Except.ok c2) (hx : x ∈ c2.cols) :
    x ∈ ct.cols.map cleanCol
      ∨ x ∈ ["NO_VOUCHER", "DPP", "PPN", "CUSTOMER", "FP_STATUS"] := by
  simp only [prepCoretax2] at hok
  split at hok
  · injection hok with h
    subst h
    rcases cleanKeyAmounts_cols_mem hx with h1 | h1
    · rcases setColWith_cols_mem h1 with h2 | h2
      · rcases setCustomer2_cols_mem h2 with h3 | h3
        · rcases harmonizeAmounts_cols_mem h3 with h4 | h4
          · rcases renameDocNo_cols_mem h4 with h5 | h5
            · left; exact h5
            · right; rw [h5]; decide
          · right
            rcases h4 with h4 | h4 <;> rw [h4] <;> decide
        · right; rw [h3]; decide
      · right; rw [h2]; decide
    · right
      rcases h1 with h1 | h1 | h1 <;> rw [h1] <;> decide
  · exact absurd hok (by simp)

theorem guard_forbidden {k3 : DF}
    (hg : (k3RequiredCols.all (· ∈ k3.cols) && k3ForbiddenCols.all (· ∉ k3.cols)) = true) :
    ∀ x ∈ k3ForbiddenCols, x ∉ k3.cols := by
  intro x hx
  simp only [Bool.and_eq_true] at hg
  have h2 := hg.2
  rw [List.all_eq_true] at h2
  exact of_decide_eq_true (h2 x hx)

theorem buildMerged_ok {k3 ct1 ct2 : DF} {m : List Row}
    (hok : buildMerged k3 ct1 ct2 = Except.ok m) :
    ∃ c1 c2, prepCoretax1 ct1 = Except.ok c1 ∧ prepCoretax2 ct2 = Except.ok c2 ∧
      (k3RequiredCols.all (· ∈ k3.cols) && k3ForbiddenCols.all (· ∉ k3.cols)) = true ∧
      m = mergeNoFpModif
        ((mergeLedgerAgg ((DF.materialize k3).rows.map
            (fun r => setCol r "No Faktur (key)" (fakturKeyCell r)))
          (aggregateCombined (concatCombined c1 c2))).map computeRowDerived) c2 := by
  unfold buildMerged at hok
  cases h1 : prepCoretax1 ct1 with
  | error e => rw [h1] at hok; simp [Bind.bind, Except.bind] at hok
  | ok c1 =>
    cases h2 : prepCoretax2 ct2 with
    | error e => rw [h1, h2] at hok; simp [Bind.bind, Except.bind] at hok
    | ok c2 =>
      rw [h1, h2] at hok
      simp only [Bind.bind, Except.bind] at hok
      split at hok
      · next hg =>
        injection hok with hm
        exact ⟨c1, c2, rfl, rfl, hg, hm.symm⟩
      · exact absurd hok (by simp)

theorem aggregateCombined_cols_sub (df : DF) :
    ∀ x ∈ (aggregateCombined df).cols,
      x ∈ ["NO_VOUCHER", "DPP", "PPN", "CUSTOMER", "FP_STATUS", "VOUCHER_NO"] := by
  intro x hx
  unfold aggregateCombined at hx
  dsimp at hx
  simp only [List.mem_cons] at hx
  rcases hx with rfl | rfl | rfl | rfl | rfl | h
  · decide
  · decide
  · decide
  · decide
  · decide
  · split at h
    · simp only [List.mem_cons, List.not_mem_nil, or_false] at h
      subst h; decide
    · simp at h

theorem mem_agg_cols {df : DF} {x : String}
    (h : x ∈ ["NO_VOUCHER", "DPP", "PPN", "CUSTOMER", "FP_STATUS"]) :
    x ∈ (aggregateCombined df).cols := by
  unfold aggregateCombined
  dsimp
  simp only [List.mem_cons, List.not_mem_nil, or_false] at h ⊢
  tauto

theorem k3row_keys {k3 : DF} {r : Row}
    (hr : r ∈ (DF.materialize k3).rows.map
      (fun r => setCol r "No Faktur (key)" (fakturKeyCell r)))
    {x : String} (hx : x ∈ Row.keys r) : x ∈ k3.cols ∨ x = "No Faktur (key)" := by
  obtain ⟨r0, hr0, rfl⟩ := List.mem_map.mp hr
  rcases keys_setCol_sub _ _ _ x hx with h | h
  · left
    unfold DF.materialize at hr0
    dsimp at hr0
    obtain ⟨r1, hr1, rfl⟩ := List.mem_map.mp hr0
    rwa [keys_map_pair] at h
  · right; exact h

theorem mem_mergeLedgerAgg {k3rows : List Row} {agg : DF} {a : Row}
    (ha : a ∈ mergeLedgerAgg k3rows agg) :
    ∃ r ∈ k3rows,
      ((agg.rows.filter (fun mm => ((Row.get mm "NO_VOUCHER").getD Cell.na)
          == ((Row.get r "No Faktur (key)").getD Cell.na))) = [] ∧
        a = r ++ agg.cols.map (fun c => (c, Cell.na)) ++ [("_merge", Cell.str "left_only")])
      ∨ (∃ mm ∈ agg.rows.filter (fun mm => ((Row.get mm "NO_VOUCHER").getD Cell.na)
          == ((Row.get r "No Faktur (key)").getD Cell.na)),
        a = r ++ agg.cols.map (fun c => (c, (Row.get mm c).getD Cell.na))
          ++ [("_merge", Cell.str "both")]) := by
  unfold mergeLedgerAgg at ha
  obtain ⟨r, hr, hmem⟩ := List.mem_flatMap.mp ha
  refine ⟨r, hr, ?_⟩
  split at hmem
  · next he =>
    left
    refine ⟨List.isEmpty_iff.mp he, ?_⟩
    simpa using hmem
  · right
    obtain ⟨mm, hmm, he⟩ := List.mem_map.mp hmem
    exact ⟨mm, hmm, he.symm⟩

theorem mergeNoFpModif_get {merged : List Row} {ct2 : DF} {a : Row}
    (ha : a ∈ mergeNoFpModif merged ct2) :
    ∃ b ∈ merged, ∀ (x : String) (v : Cell), x ≠ "NO_FP_MODIF" →
      Row.get b x = some v → Row.get a x = some v := by
  unfold mergeNoFpModif at ha
  split at ha
  · obtain ⟨b, hb, hmem⟩ := List.mem_flatMap.mp ha
    refine ⟨b, hb, ?_⟩
    intro x v hx1 hv
    split at hmem
    · have he := List.mem_singleton.mp hmem
      subst he
      exact get_append_left hv
    · obtain ⟨mm, hmm, he⟩ := List.mem_map.mp hmem
      subst he
      exact get_append_left hv
  · obtain ⟨b, hb, he⟩ := List.mem_map.mp ha
    subst he
    refine ⟨b, hb, ?_⟩
    intro x v hx1 hv
    rw [get_setCol_ne _ _ _ _ hx1]
    exact hv

theorem merged1_get_const {r0 : Row} {cols : List String} {g : String → Cell}
    {tail : Row} {x : String} (hx : x ∉ Row.keys r0) (hmem : x ∈ cols) :
    Row.get (r0 ++ cols.map (fun c => (c, g c)) ++ tail) x = some (g x) := by
  rw [get_append, get_append, get_eq_none hx,
    show Row.get (cols.map fun c => (c, g c)) x = some (g x) from lookup_map_pair hmem]
  rfl

theorem merged1_get_tail {r0 : Row} {cols : List String} {g : String → Cell}
    {v : Cell} {x : String} (hx : x ∉ Row.keys r0) (hc : x ∉ cols) :
    Row.get (r0 ++ cols.map (fun c => (c, g c)) ++ [(x, v)]) x = some v := by
  rw [get_append, get_append, get_eq_none hx,
    show Row.get (cols.map fun c => (c, g c)) x = none from lookup_map_pair_none hc]
  simp only [Option.none_or]
  exact List.lookup_cons_self

theorem computeRowDerived_get_merge (r : Row) :
    Row.get (computeRowDerived r) "_merge" = Row.get r "_merge" := by
  simp only [computeRowDerived]
  rw [get_setCol_ne _ _ _ _ (by decide), get_setCol_ne _ _ _ _ (by decide),
    get_setCol_ne _ _ _ _ (by decide), get_setCol_ne _ _ _ _ (by decide),
    get_setCol_ne _ _ _ _ (by decide), get_setCol_ne _ _ _ _ (by decide),
    get_setCol_ne _ _ _ _ (by decide), get_setCol_ne _ _ _ _ (by decide)]

theorem computeRowDerived_get_faktur (r : Row) :
    Row.get (computeRowDerived r) "No Faktur (key)" = Row.get r "No Faktur (key)" := by
  simp only [computeRowDerived]
  rw [get_setCol_ne _ _ _ _ (by decide), get_setCol_ne _ _ _ _ (by decide),
    get_setCol_ne _ _ _ _ (by decide), get_setCol_ne _ _ _ _ (by decide),
    get_setCol_ne _ _ _ _ (by decide), get_setCol_ne _ _ _ _ (by decide),
    get_setCol_ne _ _ _ _ (by decide), get_setCol_ne _ _ _ _ (by decide)]

theorem computeRowDerived_facts (r : Row) :
    Row.get (computeRowDerived r) "DPP"
      = some (Cell.num ((toNumericCoerce ((Row.get r "DPP").getD Cell.na)).getD 0)) ∧
    Row.get (computeRowDerived r) "PPN"
      = some (Cell.num ((toNumericCoerce ((Row.get r "PPN").getD Cell.na)).getD 0)) ∧
    Row.get (computeRowDerived r) "K3_NET"
      = some (Cell.num ((toNumericCoerce ((Row.get r "Debit Amount").getD Cell.na)).getD 0
          - (toNumericCoerce ((Row.get r "Credit Amount").getD Cell.na)).getD 0)) ∧
    Row.get (computeRowDerived r) "Difference"
      = some (Cell.num (((toNumericCoerce ((Row.get r "Debit Amount").getD Cell.na)).getD 0
          - (toNumericCoerce ((Row.get r "Credit Amount").getD Cell.na)).getD 0)
        - ((toNumericCoerce ((Row.get r "DPP").getD Cell.na)).getD 0
          + (toNumericCoerce ((Row.get r "PPN").getD Cell.na)).getD 0))) ∧
    Row.get (computeRowDerived r) "Keterangan (Digunggung/Tidak Digunngung)"
      = some (if ((Row.get r "_merge").getD Cell.na == Cell.str "both") = true
          then (Row.get r "FP_STATUS").getD Cell.na else Cell.str "Tidak ada di Coretax") ∧
    Row.get (computeRowDerived r) "Customer"
      = some (if ((Row.get r "_merge").getD Cell.na == Cell.str "both") = true
          then (Row.get r "CUSTOMER").getD Cell.na else Cell.na) := by
  refine ⟨?_, ?_, ?_, ?_, ?_, ?_⟩
  · simp only [computeRowDerived]
    rw [get_setCol_ne _ _ _ _ (by decide), get_setCol_ne _ _ _ _ (by decide),
      get_setCol_ne _ _ _ _ (by decide), get_setCol_ne _ _ _ _ (by decide),
      get_setCol_self]
  · simp only [computeRowDerived]
    rw [get_setCol_ne _ _ _ _ (by decide), get_setCol_ne _ _ _ _ (by decide),
      get_setCol_ne _ _ _ _ (by decide), get_setCol_self]
  · simp only [computeRowDerived]
    rw [get_setCol_ne _ _ _ _ (by decide), get_setCol_ne _ _ _ _ (by decide),
      get_setCol_ne _ _ _ _ (by decide), get_setCol_ne _ _ _ _ (by decide),
      get_setCol_ne _ _ _ _ (by decide), get_setCol_self]
  · simp only [computeRowDerived]
    rw [get_setCol_ne _ _ _ _ (by decide), get_setCol_ne _ _ _ _ (by decide),
      get_setCol_self]
  · simp only [computeRowDerived]
    rw [get_setCol_ne _ _ _ _ (by decide), get_setCol_self]
  · simp only [computeRowDerived]
    rw [get_setCol_self]

/-! ### Claim C1: join completeness -/

theorem length_filter_le_one {α : Type} {p : α → Bool} {l : List α} (hn : l.Nodup)
    (hu : ∀ a b, p a = true → p b = true → a = b) : (l.filter p).length ≤ 1 := by
  induction l with
  | nil => simp
  | cons a t ih =>
    rw [List.filter_cons]
    by_cases hp : p a = true
    · rw [if_pos hp]
      have ht : t.filter p = [] := by
        rw [List.filter_eq_nil_iff]
        intro x hx hpx
        have hxa : x = a := hu x a hpx hp
        exact (List.nodup_cons.mp hn).1 (hxa ▸ hx)
      rw [ht]
      simp
    · rw [if_neg hp]
      exact ih (List.Nodup.of_cons hn)

theorem length_flatMap_one {α β : Type} (f : α → List β) (l : List α)
    (h : ∀ a ∈ l, (f a).length = 1) : (l.flatMap f).length = l.length := by
  induction l with
  | nil => rfl
  | cons a t ih =>
    rw [List.flatMap_cons, List.length_append, h a (List.mem_cons_self a t),
      ih (fun x hx => h x (List.mem_cons_of_mem a hx)), List.length_cons]
    omega

theorem mergeLedgerAgg_length (k3rows : List Row) (agg : DF)
    (h : ∀ key : Cell, ((agg.rows.filter
      (fun mm => ((Row.get mm "NO_VOUCHER").getD Cell.na) == key)).length ≤ 1)) :
    (mergeLedgerAgg k3rows agg).length = k3rows.length := by
  unfold mergeLedgerAgg
  apply length_flatMap_one
  intro r hr
  split
  · rfl
  · next hne =>
    rw [List.length_map]
    have hle := h ((Row.get r "No Faktur (key)").getD Cell.na)
    have hge : (agg.rows.filter (fun mm => ((Row.get mm "NO_VOUCHER").getD Cell.na)
        == ((Row.get r "No Faktur (key)").getD Cell.na))).length ≠ 0 := by
      intro h0
      rw [List.length_eq_zero] at h0
      rw [h0] at hne
      simp at hne
    omega

theorem sortedDedup_nodup (l : List String) : (sortedDedup l).Nodup := by
  unfold sortedDedup
  exact ((List.perm_insertionSort _ _).nodup_iff).mpr (List.nodup_dedup l)

theorem agg_filter_le_one (df : DF) (key : Cell) :
    ((aggregateCombined df).rows.filter
      (fun mm => ((Row.get mm "NO_VOUCHER").getD Cell.na) == key)).length ≤ 1 := by
  unfold aggregateCombined
  dsimp
  rw [List.filter_map, List.length_map]
  apply length_filter_le_one (sortedDedup_nodup _)
  intro a b ha hb
  have hga := (aggGroup_gets (decide ("VOUCHER_NO" ∈ df.cols)) a
    (List.filter (fun r => keyStr r == a) df.rows)).1
  have hgb := (aggGroup_gets (decide ("VOUCHER_NO" ∈ df.cols)) b
    (List.filter (fun r => keyStr r == b) df.rows)).1
  simp only [Function.comp] at ha hb
  rw [hga] at ha
  rw [hgb] at hb
  simp only [Option.getD_some, beq_iff_eq] at ha hb
  have : Cell.str a = Cell.str b := ha.trans hb.symm
  exact Cell.str.inj this

/-- C1 as amended: when the second tax export (after column normalization)
carries no `NO_FP_MODIF` column, each successful run produces exactly one
merged row per input ledger row.  (The original claim is refuted by
`C1_counterexample`: with `NO_FP_MODIF` present, the second, unaggregated
merge fans a ledger row out once per matching second-export row.) -/
theorem C1_join_completeness (k3 ct1 ct2 : DF) (m : List Row)
    (hno : "NO_FP_MODIF" ∉ ct2.cols.map cleanCol)
    (hok : buildMerged k3 ct1 ct2 = Except.ok m) :
    m.length = k3.rows.length := by
  obtain ⟨c1, c2, h1, h2, hg, hm⟩ := buildMerged_ok hok
  subst hm
  have hno2 : "NO_FP_MODIF" ∉ c2.cols := by
    intro hmem
    rcases prepCoretax2_cols_mem h2 hmem with h | h
    · exact hno h
    · exact absurd h (by decide)
  rw [show mergeNoFpModif ((mergeLedgerAgg ((DF.materialize k3).rows.map
        (fun r => setCol r "No Faktur (key)" (fakturKeyCell r)))
        (aggregateCombined (concatCombined c1 c2))).map computeRowDerived) c2
      = ((mergeLedgerAgg ((DF.materialize k3).rows.map
        (fun r => setCol r "No Faktur (key)" (fakturKeyCell r)))
        (aggregateCombined (concatCombined c1 c2))).map computeRowDerived).map
          (fun r => setCol r "NO_FP_MODIF" Cell.na) from by
    unfold mergeNoFpModif
    rw [if_neg hno2]]
  rw [List.length_map, List.length_map,
    mergeLedgerAgg_length _ _ (fun key => agg_filter_le_one _ key), List.length_map]
  unfold DF.materialize
  dsimp
  rw [List.length_map]

/-- Counterexample to C1 as stated: one ledger row whose key matches two
rows of a second tax export that carries `NO_FP_MODIF` yields two merged
rows. -/
theorem C1_counterexample :
    (buildMerged cxK3 cxC1 cxC2).map List.length = Except.ok 2 ∧
    cxK3.rows.length = 1 := by
  constructor
  · with_unfolding_all rfl
  · rfl

/-- Witness for the amended C1 at the spec's end-to-end scenario (three
ledger rows, no `NO_FP_MODIF` column). -/
theorem C1_join_completeness_witness :
    (buildMerged eK3 eC1 eC2).map List.length = Except.ok eK3.rows.length := by
  have hok : (buildMerged eK3 eC1 eC2).isOk = true := by with_unfolding_all rfl
  cases e : buildMerged eK3 eC1 eC2 with
  | error err => rw [e] at hok; simp [Except.isOk, Except.toBool] at hok
  | ok m =>
    have hlen := C1_join_completeness eK3 eC1 eC2 m (by decide) e
    simp [Except.map, hlen]

/-! ### Claim C7: harmonized-key invariant -/

theorem trimChars_idem (l : List Char) : trimChars (trimChars l) = trimChars l := by
  have hd : List.dropWhile isWs (trimChars l) = trimChars l := by
    rcases hh : trimChars l with _ | ⟨a, t⟩
    · rfl
    · have h1 : (trimChars l).head? = some a := by rw [hh]; rfl
      have h2 : (List.dropWhile isWs l).head? = some a := by
        unfold trimChars at h1
        exact head?_of_isPrefix (List.rdropWhile_prefix _ _) h1
      have ha := head?_dropWhile_ne _ _ h2
      exact List.dropWhile_cons_of_neg ha
  rw [show trimChars (trimChars l)
      = List.rdropWhile isWs (List.dropWhile isWs (trimChars l)) from rfl, hd]
  apply List.rdropWhile_eq_self_iff.mpr
  intro hl
  exact List.rdropWhile_last_not isWs (List.dropWhile isWs l) hl

theorem pyStrip_idem (s : String) : pyStrip (pyStrip s) = pyStrip s := by
  unfold pyStrip
  rw [show (String.mk (trimChars s.data)).data = trimChars s.data from rfl, trimChars_idem]

theorem setColWith_cols_mono {df : DF} {k k0 : String} {f : Row → Cell}
    (h : k ∈ df.cols) : k ∈ (DF.setColWith df k0 f).cols := by
  unfold DF.setColWith
  dsimp
  split
  · exact h
  · exact List.mem_append_left _ h

theorem setColWith_self_cols {df : DF} {k : String} {f : Row → Cell} :
    k ∈ (DF.setColWith df k f).cols := by
  unfold DF.setColWith
  dsimp
  split
  · assumption
  · exact List.mem_append_right _ (by simp)

theorem cleanKeyAmounts_nov {df : DF} : "NO_VOUCHER" ∈ (cleanKeyAmounts df).cols := by
  simp only [cleanKeyAmounts]
  split <;> split <;>
    exact setColWith_cols_mono (setColWith_cols_mono setColWith_self_cols)

theorem setColWith_rows_mem {d : DF} {k : String} {f : Row → Cell} {r : Row}
    (h : r ∈ (DF.setColWith d k f).rows) : ∃ r0 ∈ d.rows, r = setCol r0 k (f r0) := by
  unfold DF.setColWith at h
  dsimp at h
  obtain ⟨r0, h0, he⟩ := List.mem_map.mp h
  exact ⟨r0, h0, he.symm⟩

theorem cleanKeyAmounts_rows_nov {df : DF} {r1 : Row}
    (hr : r1 ∈ (cleanKeyAmounts df).rows) :
    ∃ s : String, Row.get r1 "NO_VOUCHER" = some (Cell.str (pyStrip s)) := by
  simp only [cleanKeyAmounts] at hr
  split at hr <;> split at hr <;>
    (obtain ⟨r2, hr2, rfl⟩ := setColWith_rows_mem hr
     rw [get_setCol_ne _ _ _ _ (by decide)]
     obtain ⟨r3, hr3, rfl⟩ := setColWith_rows_mem hr2
     rw [get_setCol_ne _ _ _ _ (by decide)]
     obtain ⟨r4, hr4, rfl⟩ := setColWith_rows_mem hr3
     exact ⟨cellStr ((Row.get r4 "NO_VOUCHER").getD Cell.na), get_setCol_self _ _ _⟩)

theorem prepCoretax1_ok_shape {ct c1 : DF} (h : prepCoretax1 ct = Except.ok c1) :
    ∃ d : DF, c1 = cleanKeyAmounts d := by
  simp only [prepCoretax1] at h
  split at h
  · injection h with h'
    exact ⟨_, h'.symm⟩
  · exact absurd h (by simp)

theorem prepCoretax2_ok_shape {ct c2 : DF} (h : prepCoretax2 ct = Except.ok c2) :
    ∃ d : DF, c2 = cleanKeyAmounts d := by
  simp only [prepCoretax2] at h
  split at h
  · injection h with h'
    exact ⟨_, h'.symm⟩
  · exact absurd h (by simp)

theorem keyStr_aggGroup (hv : Bool) (k : String) (g : List Row) :
    keyStr (aggGroup hv k g) = k := by
  unfold keyStr
  rw [(aggGroup_gets hv k g).1]
  rfl

theorem mem_sortedDedup {a : String} {l : List String} (h : a ∈ l) :
    a ∈ sortedDedup l := by
  unfold sortedDedup
  exact (List.mem_insertionSort _).mpr (List.mem_dedup.mpr h)

theorem buildAgg_ok {ct1 ct2 agg : DF} (hok : buildAgg ct1 ct2 = Except.ok agg) :
    ∃ c1 c2, prepCoretax1 ct1 = Except.ok c1 ∧ prepCoretax2 ct2 = Except.ok c2 ∧
      agg = aggregateCombined (concatCombined c1 c2) := by
  unfold buildAgg at hok
  cases h1 : prepCoretax1 ct1 with
  | error e => rw [h1] at hok; simp [Bind.bind, Except.bind] at hok
  | ok c1 =>
    cases h2 : prepCoretax2 ct2 with
    | error e => rw [h1, h2] at hok; simp [Bind.bind, Except.bind] at hok
    | ok c2 =>
      rw [h1, h2] at hok
      simp only [Bind.bind, Except.bind] at hok
      injection hok with hm
      exact ⟨c1, c2, rfl, rfl, hm.symm⟩

theorem nov_mem_keepCols {d : DF} (h : "NO_VOUCHER" ∈ d.cols) :
    "NO_VOUCHER" ∈ keepCols d := by
  unfold keepCols
  rw [List.mem_filter]
  exact ⟨by decide, decide_eq_true h⟩

theorem concat_keyStr {c1 c2 : DF} {rc : Row}
    (hrc : rc ∈ (concatCombined c1 c2).rows)
    (h1 : "NO_VOUCHER" ∈ c1.cols) (h2 : "NO_VOUCHER" ∈ c2.cols)
    (hv1 : ∀ r ∈ c1.rows, ∃ s, Row.get r "NO_VOUCHER" = some (Cell.str (pyStrip s)))
    (hv2 : ∀ r ∈ c2.rows, ∃ s, Row.get r "NO_VOUCHER" = some (Cell.str (pyStrip s))) :
    ∃ s, keyStr rc = pyStrip s := by
  have hu : "NO_VOUCHER" ∈ (keepCols c1 ++ (keepCols c2).filter (· ∉ keepCols c1)) :=
    List.mem_append_left _ (nov_mem_keepCols h1)
  unfold concatCombined at hrc
  dsimp at hrc
  rcases List.mem_append.mp hrc with h | h
  · obtain ⟨r1, hr1, rfl⟩ := List.mem_map.mp h
    obtain ⟨s, hs⟩ := hv1 r1 hr1
    refine ⟨s, ?_⟩
    unfold keyStr
    rw [show Row.get ((keepCols c1 ++ (keepCols c2).filter (· ∉ keepCols c1)).map
        (fun c => (c, if c ∈ keepCols c1 then (Row.get r1 c).getD Cell.na else Cell.na)))
        "NO_VOUCHER"
        = some (if "NO_VOUCHER" ∈ keepCols c1 then (Row.get r1 "NO_VOUCHER").getD Cell.na
            else Cell.na) from lookup_map_pair hu]
    rw [if_pos (nov_mem_keepCols h1), hs]
    rfl
  · obtain ⟨r1, hr1, rfl⟩ := List.mem_map.mp h
    obtain ⟨s, hs⟩ := hv2 r1 hr1
    refine ⟨s, ?_⟩
    unfold keyStr
    rw [show Row.get ((keepCols c1 ++ (keepCols c2).filter (· ∉ keepCols c1)).map
        (fun c => (c, if c ∈ keepCols c2 then (Row.get r1 c).getD Cell.na else Cell.na)))
        "NO_VOUCHER"
        = some (if "NO_VOUCHER" ∈ keepCols c2 then (Row.get r1 "NO_VOUCHER").getD Cell.na
            else Cell.na) from lookup_map_pair hu]
    rw [if_pos (nov_mem_keepCols h2), hs]
    rfl

/-- C7 as amended: aggregated keys are always trimmed strings, and a tax
export whose normalized columns contain neither `NO_VOUCHER` nor `DOC_NO` is
rejected with the harmonization `ValueError`; but a blank (or otherwise
empty) key value in a row is NOT rejected: it is carried through to
aggregation (see `C7_counterexample`, where a whitespace-only voucher number
aggregates under the empty-string key). -/
theorem C7_key_invariant :
    (∀ ct1 ct2 : DF, "NO_VOUCHER" ∉ ct1.cols.map cleanCol →
      "DOC_NO" ∉ ct1.cols.map cleanCol →
      buildAgg ct1 ct2
        = Except.error "Coretax Digunggung: kolom DOC_NO / NO VOUCHER tidak ditemukan.") ∧
    (∀ ct1 ct2 agg, buildAgg ct1 ct2 = Except.ok agg →
      ∀ r ∈ agg.rows, pyStrip (keyStr r) = keyStr r) := by
  constructor
  · intro ct1 ct2 hnv hdn
    have hprep : prepCoretax1 ct1
        = Except.error "Coretax Digunggung: kolom DOC_NO / NO VOUCHER tidak ditemukan." := by
      simp only [prepCoretax1]
      have hdf : renameDocNo (normalizeColumns ct1.materialize)
          = normalizeColumns ct1.materialize := by
        unfold renameDocNo
        rw [if_neg]
        intro hand
        exact hdn hand.1
      rw [hdf, if_neg]
      exact fun hm => hnv hm
    unfold buildAgg
    rw [hprep]
    rfl
  · intro ct1 ct2 agg hok r hr
    obtain ⟨c1, c2, h1, h2, hm⟩ := buildAgg_ok hok
    subst hm
    unfold aggregateCombined at hr
    dsimp at hr
    obtain ⟨k, hk, rfl⟩ := List.mem_map.mp hr
    rw [keyStr_aggGroup]
    have hkX : k ∈ (concatCombined c1 c2).rows.map keyStr := by
      unfold sortedDedup at hk
      exact List.mem_dedup.mp ((List.mem_insertionSort _).mp hk)
    obtain ⟨rc, hrc, rfl⟩ := List.mem_map.mp hkX
    obtain ⟨d1, rfl⟩ := prepCoretax1_ok_shape h1
    obtain ⟨d2, rfl⟩ := prepCoretax2_ok_shape h2
    obtain ⟨s, hs⟩ := concat_keyStr hrc cleanKeyAmounts_nov cleanKeyAmounts_nov
      (fun rr hrr => cleanKeyAmounts_rows_nov hrr)
      (fun rr hrr => cleanKeyAmounts_rows_nov hrr)
    rw [hs, pyStrip_idem]

/-- Counterexample to C7 as stated: a whitespace-only voucher value is not
rejected; it flows into aggregation as the empty-string key (and the run
succeeds). -/
theorem C7_counterexample :
    (buildAgg blankKeyC1 cxC2).map (fun a => a.rows.map keyStr)
      = Except.ok ["", "K1"] := by
  with_unfolding_all rfl

/-- Witness for the amended C7: a missing key column errors, and a concrete
aggregated key (the empty string produced by a blank voucher value) is its
own trim. -/
theorem C7_key_invariant_witness :
    buildAgg noKeyCt cxC2
      = Except.error "Coretax Digunggung: kolom DOC_NO / NO VOUCHER tidak ditemukan." ∧
    pyStrip (keyStr c7row0) = keyStr c7row0 := by
  refine ⟨C7_key_invariant.1 noKeyCt cxC2 (by decide) (by decide), ?_⟩
  have hok : buildAgg blankKeyC1 cxC2 = Except.ok c7agg := by with_unfolding_all rfl
  exact C7_key_invariant.2 blankKeyC1 cxC2 c7agg hok c7row0
    (List.mem_cons_self c7row0 _)

/-! ### Claim C6: unmatched-row policy -/

theorem keys_append (r₁ r₂ : Row) :
    Row.keys (r₁ ++ r₂) = Row.keys r₁ ++ Row.keys r₂ :=
  List.map_append _ _ _

theorem computeRowDerived_keys (r : Row) {y : String}
    (hy : y ∈ Row.keys (computeRowDerived r)) :
    y ∈ Row.keys r ∨ y ∈ ["Debit Amount", "Credit Amount", "K3_NET", "DPP", "PPN",
      "Difference", "Keterangan (Digunggung/Tidak Digunngung)", "Customer"] := by
  simp only [computeRowDerived] at hy
  rcases keys_setCol_sub _ _ _ y hy with h | h
  · rcases keys_setCol_sub _ _ _ y h with h | h
    · rcases keys_setCol_sub _ _ _ y h with h | h
      · rcases keys_setCol_sub _ _ _ y h with h | h
        · rcases keys_setCol_sub _ _ _ y h with h | h
          · rcases keys_setCol_sub _ _ _ y h with h | h
            · rcases keys_setCol_sub _ _ _ y h with h | h
              · rcases keys_setCol_sub _ _ _ y h with h | h
                · exact Or.inl h
                · exact Or.inr (by rw [h]; decide)
              · exact Or.inr (by rw [h]; decide)
            · exact Or.inr (by rw [h]; decide)
          · exact Or.inr (by rw [h]; decide)
        · exact Or.inr (by rw [h]; decide)
      · exact Or.inr (by rw [h]; decide)
    · exact Or.inr (by rw [h]; decide)
  · exact Or.inr (by rw [h]; decide)

theorem mergeNoFpModif_cases {merged : List Row} {ct2 : DF} {a : Row}
    (ha : a ∈ mergeNoFpModif merged ct2) :
    ∃ b ∈ merged,
      a = setCol b "NO_FP_MODIF" Cell.na ∨
      a = b ++ [("NO_VOUCHER_from_coretax2", Cell.na), ("NO_FP_MODIF", Cell.na)] ∨
      ∃ mm ∈ ct2.rows.filter (fun mm => ((Row.get mm "NO_VOUCHER").getD Cell.na)
          == ((Row.get b "No Faktur (key)").getD Cell.na)),
        a = b ++ [("NO_VOUCHER_from_coretax2", (Row.get mm "NO_VOUCHER").getD Cell.na),
          ("NO_FP_MODIF", (Row.get mm "NO_FP_MODIF").getD Cell.na)] := by
  unfold mergeNoFpModif at ha
  split at ha
  · obtain ⟨b, hb, hmem⟩ := List.mem_flatMap.mp ha
    refine ⟨b, hb, ?_⟩
    split at hmem
    · exact Or.inr (Or.inl (List.mem_singleton.mp hmem))
    · obtain ⟨mm, hmm, he⟩ := List.mem_map.mp hmem
      exact Or.inr (Or.inr ⟨mm, hmm, he.symm⟩)
  · obtain ⟨b, hb, he⟩ := List.mem_map.mp ha
    exact ⟨b, hb, Or.inl he.symm⟩

theorem concat_mem_right {c1 c2 : DF} {mm : Row} (hmm : mm ∈ c2.rows) :
    ((keepCols c1 ++ (keepCols c2).filter (· ∉ keepCols c1)).map
      (fun c => (c, if c ∈ keepCols c2 then (Row.get mm c).getD Cell.na else Cell.na)))
      ∈ (concatCombined c1 c2).rows := by
  unfold concatCombined
  dsimp
  exact List.mem_append_right _ (List.mem_map_of_mem _ hmm)

theorem concat_right_keyStr {c1 c2 : DF} {mm : Row}
    (h1 : "NO_VOUCHER" ∈ c1.cols) (h2 : "NO_VOUCHER" ∈ c2.cols) {s : String}
    (hs : Row.get mm "NO_VOUCHER" = some (Cell.str s)) :
    keyStr ((keepCols c1 ++ (keepCols c2).filter (· ∉ keepCols c1)).map
      (fun c => (c, if c ∈ keepCols c2 then (Row.get mm c).getD Cell.na else Cell.na)))
      = s := by
  unfold keyStr
  rw [show Row.get ((keepCols c1 ++ (keepCols c2).filter (· ∉ keepCols c1)).map
      (fun c => (c, if c ∈ keepCols c2 then (Row.get mm c).getD Cell.na else Cell.na)))
      "NO_VOUCHER"
      = some (if "NO_VOUCHER" ∈ keepCols c2 then (Row.get mm "NO_VOUCHER").getD Cell.na
          else Cell.na)
      from lookup_map_pair (List.mem_append_left _ (nov_mem_keepCols h1))]
  rw [if_pos (nov_mem_keepCols h2), hs]
  rfl

set_option maxHeartbeats 1600000 in
/-- Core facts about an unmatched merged row (shared by the unmatched-row
policy and the fill-step analysis): on a "left_only" row the counterparty
and `NO_FP_MODIF` are the missing value, the remark is the fixed sentinel,
DPP and PPN are numeric 0, and the variance equals the net. -/
theorem unmatched_facts {k3 ct1 ct2 : DF} {m : List Row} {r : Row}
    (hok : buildMerged k3 ct1 ct2 = Except.ok m) (hr : r ∈ m)
    (hum : Row.get r "_merge" = some (Cell.str "left_only")) :
    Row.get r "Customer" = some Cell.na ∧
    Row.get r "Keterangan (Digunggung/Tidak Digunngung)"
      = some (Cell.str "Tidak ada di Coretax") ∧
    Row.get r "DPP" = some (Cell.num 0) ∧
    Row.get r "PPN" = some (Cell.num 0) ∧
    Row.get r "Difference" = Row.get r "K3_NET" ∧
    Row.get r "NO_FP_MODIF" = some Cell.na := by
  obtain ⟨c1, c2, h1, h2, hg, hm⟩ := buildMerged_ok hok
  subst hm
  obtain ⟨b, hb, hcase2⟩ := mergeNoFpModif_cases hr
  have hlift : ∀ (x : String) (v : Cell), x ≠ "NO_FP_MODIF" →
      Row.get b x = some v → Row.get r x = some v := by
    intro x v hx hv
    rcases hcase2 with rfl | rfl | ⟨mm, hmm, rfl⟩
    · rw [get_setCol_ne _ _ _ _ hx]; exact hv
    · exact get_append_left hv
    · exact get_append_left hv
  obtain ⟨b0, hb0, rfl⟩ := List.mem_map.mp hb
  obtain ⟨r0, hr0, hcase⟩ := mem_mergeLedgerAgg hb0
  have hforb := guard_forbidden hg
  have hr0keys : ∀ x ∈ k3ForbiddenCols, x ∉ Row.keys r0 := by
    intro x hx hk
    rcases k3row_keys hr0 hk with h | h
    · exact hforb x hx h
    · rw [h] at hx
      exact absurd hx (by decide)
  -- the matched branch contradicts the "left_only" indicator
  rcases hcase with ⟨hfe, rfl⟩ | ⟨mm0, hmm0, rfl⟩
  · -- unmatched: the aggregated columns contributed missing values
    have hmergeb0 : Row.get (r0 ++ (aggregateCombined (concatCombined c1 c2)).cols.map
        (fun c => (c, Cell.na)) ++ [("_merge", Cell.str "left_only")]) "_merge"
        = some (Cell.str "left_only") := by
      apply merged1_get_tail (hr0keys "_merge" (by decide))
      intro hc
      have := aggregateCombined_cols_sub _ _ hc
      exact absurd this (by decide)
    have hdpp : Row.get (r0 ++ (aggregateCombined (concatCombined c1 c2)).cols.map
        (fun c => (c, Cell.na)) ++ [("_merge", Cell.str "left_only")]) "DPP"
        = some Cell.na :=
      merged1_get_const (hr0keys "DPP" (by decide)) (mem_agg_cols (by decide))
    have hppn : Row.get (r0 ++ (aggregateCombined (concatCombined c1 c2)).cols.map
        (fun c => (c, Cell.na)) ++ [("_merge", Cell.str "left_only")]) "PPN"
        = some Cell.na :=
      merged1_get_const (hr0keys "PPN" (by decide)) (mem_agg_cols (by decide))
    obtain ⟨hfD, hfP, hfN, hfDiff, hfK, hfC⟩ := computeRowDerived_facts
      (r0 ++ (aggregateCombined (concatCombined c1 c2)).cols.map
        (fun c => (c, Cell.na)) ++ [("_merge", Cell.str "left_only")])
    rw [hmergeb0] at hfK hfC
    rw [hdpp] at hfD hfDiff
    rw [hppn] at hfP hfDiff
    simp only [Option.getD_some, toNumericCoerce, Option.getD_none,
      show ((Cell.str "left_only" == Cell.str "both")) = false from by decide,
      if_neg (by simp : ¬ (false = true))] at hfD hfP hfDiff hfK hfC
    refine ⟨hlift _ _ (by decide) hfC, hlift _ _ (by decide) hfK,
      hlift _ _ (by decide) (by simpa using hfD),
      hlift _ _ (by decide) (by simpa using hfP), ?_, ?_⟩
    · have hzero : ∀ q : ℚ, q - (0 + 0) = q := by intro q; ring
      rw [hzero] at hfDiff
      rw [hlift _ _ (by decide) hfDiff, hlift _ _ (by decide) hfN]
      rfl
    · -- the NO_FP_MODIF column of an unmatched row is the missing value
      have hNFMb : "NO_FP_MODIF" ∉ Row.keys (computeRowDerived (r0
          ++ (aggregateCombined (concatCombined c1 c2)).cols.map (fun c => (c, Cell.na))
          ++ [("_merge", Cell.str "left_only")])) := by
        intro hk
        rcases computeRowDerived_keys _ hk with h | h
        · rw [keys_append, keys_append] at h
          rcases List.mem_append.mp h with h | h
          · rcases List.mem_append.mp h with h | h
            · exact hr0keys "NO_FP_MODIF" (by decide) h
            · rw [keys_map_pair] at h
              exact absurd (aggregateCombined_cols_sub _ _ h) (by decide)
          · simp only [Row.keys, List.map_cons, List.map_nil, List.mem_singleton] at h
            exact absurd h (by decide)
        · exact absurd h (by decide)
      rcases hcase2 with he | he | ⟨mm, hmm, he⟩
      · rw [he]
        exact get_setCol_self _ _ _
      · rw [he, get_append, get_eq_none hNFMb]
        decide
      · -- a merge-2 match at this key is impossible: the aggregation covers
        -- every prepared second-export key, so the first merge would have hit
        exfalso
        rw [List.mem_filter] at hmm
        obtain ⟨hmm2, hpred⟩ := hmm
        obtain ⟨rm, hrm, hr0e⟩ := List.mem_map.mp hr0
        have hfakr0 : Row.get r0 "No Faktur (key)" = some (fakturKeyCell rm) := by
          rw [← hr0e]
          exact get_setCol_self _ _ _
        have hfak : Row.get (computeRowDerived (r0
            ++ (aggregateCombined (concatCombined c1 c2)).cols.map (fun c => (c, Cell.na))
            ++ [("_merge", Cell.str "left_only")])) "No Faktur (key)"
            = some (fakturKeyCell rm) := by
          rw [computeRowDerived_get_faktur]
          exact get_append_left (get_append_left hfakr0)
        obtain ⟨d1, rfl⟩ := prepCoretax1_ok_shape h1
        obtain ⟨d2, rfl⟩ := prepCoretax2_ok_shape h2
        obtain ⟨s, hs⟩ := cleanKeyAmounts_rows_nov hmm2
        rw [hs, hfak] at hpred
        simp only [Option.getD_some, beq_iff_eq] at hpred
        have hmemk : pyStrip s ∈ (concatCombined (cleanKeyAmounts d1)
            (cleanKeyAmounts d2)).rows.map keyStr :=
          List.mem_map.mpr ⟨_, concat_mem_right hmm2,
            concat_right_keyStr cleanKeyAmounts_nov cleanKeyAmounts_nov hs⟩
        have hagg : aggGroup
            (decide ("VOUCHER_NO" ∈ (concatCombined (cleanKeyAmounts d1)
              (cleanKeyAmounts d2)).cols)) (pyStrip s)
            ((concatCombined (cleanKeyAmounts d1) (cleanKeyAmounts d2)).rows.filter
              (fun rr => keyStr rr == pyStrip s))
            ∈ (aggregateCombined (concatCombined (cleanKeyAmounts d1)
              (cleanKeyAmounts d2))).rows := by
          unfold aggregateCombined
          exact List.mem_map_of_mem _ (mem_sortedDedup hmemk)
        refine (List.filter_eq_nil_iff.mp hfe _ hagg) ?_
        rw [(aggGroup_gets _ _ _).1, hfakr0]
        simp only [Option.getD_some]
        rw [hpred]
        exact beq_self_eq_true _
  · -- matched: the indicator would be "both", contradiction
    exfalso
    have hmergeb0 : Row.get (r0 ++ (aggregateCombined (concatCombined c1 c2)).cols.map
        (fun c => (c, (Row.get mm0 c).getD Cell.na)) ++ [("_merge", Cell.str "both")]) "_merge"
        = some (Cell.str "both") := by
      apply merged1_get_tail (hr0keys "_merge" (by decide))
      intro hc
      have := aggregateCombined_cols_sub _ _ hc
      exact absurd this (by decide)
    have hboth := hlift "_merge" (Cell.str "both") (by decide)
      ((computeRowDerived_get_merge _).trans hmergeb0)
    rw [hum] at hboth
    have := Option.some.inj hboth
    exact absurd this (by decide)

/-- C6: in a successful run, every merged row whose merge indicator is
"left_only" (the extracted key matched no aggregated tax record) has its
counterparty forced to the missing value, its remark column forced to the
fixed sentinel "Tidak ada di Coretax", its DPP and PPN zero-filled to
numeric 0, and its variance equal to its net (the tax side contributes 0).
The run returned `ok`, so the miss is surfaced per row, not as an error. -/
theorem C6_unmatched_policy (k3 ct1 ct2 : DF) (m : List Row) (r : Row)
    (hok : buildMerged k3 ct1 ct2 = Except.ok m) (hr : r ∈ m)
    (hum : Row.get r "_merge" = some (Cell.str "left_only")) :
    Row.get r "Customer" = some Cell.na ∧
    Row.get r "Keterangan (Digunggung/Tidak Digunngung)"
      = some (Cell.str "Tidak ada di Coretax") ∧
    Row.get r "DPP" = some (Cell.num 0) ∧
    Row.get r "PPN" = some (Cell.num 0) ∧
    Row.get r "Difference" = Row.get r "K3_NET" := by
  obtain ⟨hC, hK, hD, hP, hDiff, _⟩ := unmatched_facts hok hr hum
  exact ⟨hC, hK, hD, hP, hDiff⟩

/-- Witness for C6: the unmatched concrete row of
`buildMerged unmatchedK3 cxC1 cxC2`. -/
theorem C6_unmatched_policy_witness :
    Row.get c6row "Customer" = some Cell.na ∧
    Row.get c6row "Keterangan (Digunggung/Tidak Digunngung)"
      = some (Cell.str "Tidak ada di Coretax") ∧
    Row.get c6row "DPP" = some (Cell.num 0) ∧
    Row.get c6row "PPN" = some (Cell.num 0) ∧
    Row.get c6row "Difference" = Row.get c6row "K3_NET" :=
  C6_unmatched_policy unmatchedK3 cxC1 cxC2 [c6row] c6row
    (by with_unfolding_all rfl) (List.mem_singleton.mpr rfl)
    (by with_unfolding_all rfl)

/-! ### Claim C9: the alleged duplicate "Voucher No." reinterpretation -/

theorem compare_files_ok {k3 ct1 ct2 : DF} {p : List Row × List (List (Option Cell))}
    (h : compare_files k3 ct1 ct2 = Except.ok p) :
    ∃ m, buildMerged k3 ct1 ct2 = Except.ok m ∧
      p = (m.map fillRow, (m.map fillRow).map projectRow) := by
  unfold compare_files at h
  cases e : buildMerged k3 ct1 ct2 with
  | error err => rw [e] at h; simp [Bind.bind, Except.bind] at h
  | ok m =>
    rw [e] at h
    simp only [Bind.bind, Except.bind] at h
    injection h with h'
    exact ⟨m, rfl, h'.symm⟩

theorem guard_required {k3 : DF}
    (hg : (k3RequiredCols.all (· ∈ k3.cols) && k3ForbiddenCols.all (· ∉ k3.cols)) = true) :
    ∀ x ∈ k3RequiredCols, x ∈ k3.cols := by
  intro x hx
  simp only [Bool.and_eq_true] at hg
  have h1 := hg.1
  rw [List.all_eq_true] at h1
  exact of_decide_eq_true (h1 x hx)

/-- Every column of a merged row is either a ledger column or one the
pipeline itself introduces: the pipeline never invents an "Account No"
column. -/
theorem mergedRow_keys {k3 ct1 ct2 : DF} {m : List Row} {r : Row}
    (hok : buildMerged k3 ct1 ct2 = Except.ok m) (hr : r ∈ m) :
    ∀ y ∈ Row.keys r, y ∈ k3.cols ∨ y ∈ pipelineCols := by
  obtain ⟨c1, c2, h1, h2, hg, hm⟩ := buildMerged_ok hok
  subst hm
  obtain ⟨b, hb, hcase2⟩ := mergeNoFpModif_cases hr
  obtain ⟨b0, hb0, rfl⟩ := List.mem_map.mp hb
  obtain ⟨r0, hr0, hcase⟩ := mem_mergeLedgerAgg hb0
  intro y hy
  have hstep2 : y ∈ Row.keys (computeRowDerived b0)
      ∨ y = "NO_VOUCHER_from_coretax2" ∨ y = "NO_FP_MODIF" := by
    rcases hcase2 with he | he | ⟨mm, hmm, he⟩
    · rw [he] at hy
      rcases keys_setCol_sub _ _ _ y hy with h | h
      · exact Or.inl h
      · exact Or.inr (Or.inr h)
    · rw [he, keys_append] at hy
      rcases List.mem_append.mp hy with h | h
      · exact Or.inl h
      · simp only [Row.keys, List.map_cons, List.map_nil, List.mem_cons,
          List.not_mem_nil, or_false] at h
        exact Or.inr h
    · rw [he, keys_append] at hy
      rcases List.mem_append.mp hy with h | h
      · exact Or.inl h
      · simp only [Row.keys, List.map_cons, List.map_nil, List.mem_cons,
          List.not_mem_nil, or_false] at h
        exact Or.inr h
  rcases hstep2 with hyb | hy2
  · rcases computeRowDerived_keys _ hyb with hyb0 | h8
    · have hsplit : y ∈ Row.keys r0
          ∨ y ∈ (aggregateCombined (concatCombined c1 c2)).cols ∨ y = "_merge" := by
        rcases hcase with ⟨_, he0⟩ | ⟨mm, hmm, he0⟩ <;>
          (rw [he0, keys_append, keys_append] at hyb0
           rcases List.mem_append.mp hyb0 with h | h
           · rcases List.mem_append.mp h with h | h
             · exact Or.inl h
             · rw [keys_map_pair] at h
               exact Or.inr (Or.inl h)
           · simp only [Row.keys, List.map_cons, List.map_nil, List.mem_cons,
               List.not_mem_nil, or_false] at h
             exact Or.inr (Or.inr h))
      rcases hsplit with h | h | h
      · rcases k3row_keys hr0 h with h' | h'
        · exact Or.inl h'
        · exact Or.inr (by rw [h']; decide)
      · have h6 := aggregateCombined_cols_sub _ _ h
        simp only [List.mem_cons, List.not_mem_nil, or_false] at h6
        rcases h6 with rfl | rfl | rfl | rfl | rfl | rfl <;> exact Or.inr (by decide)
      · exact Or.inr (by rw [h]; decide)
    · simp only [List.mem_cons, List.not_mem_nil, or_false] at h8
      rcases h8 with rfl | rfl | rfl | rfl | rfl | rfl | rfl | rfl
      · exact Or.inl (guard_required hg _ (by decide))
      · exact Or.inl (guard_required hg _ (by decide))
      all_goals exact Or.inr (by decide)
  · rcases hy2 with rfl | rfl <;> exact Or.inr (by decide)

theorem map_eq_replicate {α β : Type} (g : α → β) (l : List α) (c : β)
    (h : ∀ a ∈ l, g a = c) : l.map g = List.replicate l.length c := by
  induction l with
  | nil => rfl
  | cons a t ih =>
    rw [List.map_cons, h a (List.mem_cons_self a t),
      ih (fun x hx => h x (List.mem_cons_of_mem a hx))]
    rfl

/-- C9 as amended: no such reinterpretation exists in the code.  The report
writer takes "Account No" and "Voucher No." as-is (src/app.py:250-251); a
duplicate "Voucher No." column (pandas-mangled to "Voucher No..1" on read)
is never reinterpreted, and when the ledger has no "Account No" column the
report's Account-No cell is simply blank on every row. -/
theorem C9_no_reinterpretation (k3 ct1 ct2 : DF) (f : List Row)
    (rep : List (List (Option Cell)))
    (hok : compare_files k3 ct1 ct2 = Except.ok (f, rep))
    (hacc : "Account No" ∉ k3.cols) :
    ∀ row ∈ rep, row[0]? = some none := by
  obtain ⟨m, hm, hp⟩ := compare_files_ok hok
  have hrep : rep = (m.map fillRow).map projectRow := congrArg Prod.snd hp
  intro row hrow
  rw [hrep] at hrow
  obtain ⟨rf, hrf, rfl⟩ := List.mem_map.mp hrow
  obtain ⟨b, hbm, rfl⟩ := List.mem_map.mp hrf
  have hknone : "Account No" ∉ Row.keys (fillRow b) := by
    rw [keys_fillRow]
    intro hk
    rcases mergedRow_keys hm hbm _ hk with h | h
    · exact hacc h
    · exact absurd h (by decide)
  show (reportCols.map (Row.get (fillRow b)))[0]? = some none
  rw [List.getElem?_map, show reportCols[0]? = some "Account No" from rfl]
  show some (Row.get (fillRow b) "Account No") = some none
  rw [get_eq_none hknone]

/-- Counterexample to C9 as stated: a ledger with "Voucher No." and a
duplicate second voucher column but no "Account No" produces a report whose
Account-No cell (position 0) is blank and whose Voucher-No cell (position 4)
is the FIRST voucher column's value, on every row — nothing was
reinterpreted. -/
theorem C9_counterexample :
    (compare_files dupVoucherK3 cxC1 cxC2).map
        (fun p => p.2.map (fun row => (row[0]?, row[4]?)))
      = Except.ok [(some none, some (some (Cell.str "V1"))),
          (some none, some (some (Cell.str "V1")))] := by
  with_unfolding_all rfl

/-- Witness for the amended C9 on the duplicate-voucher ledger. -/
theorem C9_no_reinterpretation_witness :
    (compare_files dupVoucherK3 cxC1 cxC2).map
        (fun p => p.2.map (fun row => row[0]?))
      = Except.ok [some none, some none] := by
  have hok : (compare_files dupVoucherK3 cxC1 cxC2).isOk = true := by
    with_unfolding_all rfl
  cases e : compare_files dupVoucherK3 cxC1 cxC2 with
  | error err => rw [e] at hok; simp [Except.isOk, Except.toBool] at hok
  | ok p =>
    obtain ⟨f, rep⟩ := p
    have h9 := C9_no_reinterpretation dupVoucherK3 cxC1 cxC2 f rep e (by decide)
    have hlen : rep.length = 2 := by
      have hl : (compare_files dupVoucherK3 cxC1 cxC2).map (fun p => p.2.length)
          = Except.ok 2 := by with_unfolding_all rfl
      rw [e] at hl
      simpa [Except.map] using hl
    have hmap : rep.map (fun row => row[0]?) = List.replicate rep.length (some none) :=
      map_eq_replicate _ _ _ h9
    rw [hlen] at hmap
    simp only [Except.map]
    rw [hmap]
    rfl

/-! ### Claim C10: the fill step and what reaches the report sink -/

theorem lookup_mem {l : Row} {k : String} {v : Cell}
    (h : List.lookup k l = some v) : (k, v) ∈ l := by
  induction l with
  | nil => simp at h
  | cons p t ih =>
    cases p with
    | mk a w =>
      by_cases hk : k = a
      · subst hk
        rw [List.lookup_cons_self] at h
        injection h with h
        exact h ▸ List.mem_cons_self _ _
      · rw [lookup_cons_ne hk] at h
        exact List.mem_cons_of_mem _ (ih h)

theorem fillRow_no_na {b : Row} {p : String × Cell} (hp : p ∈ fillRow b) :
    p.2 ≠ Cell.na := by
  obtain ⟨q, hq, rfl⟩ := List.mem_map.mp hp
  dsimp
  by_cases hna : q.2 = Cell.na
  · rw [if_pos hna]
    exact fun h => Cell.noConfusion h
  · rw [if_neg hna]
    exact hna

/-- C10 as amended: after `fillna("-")` every cell of every merged row is
non-missing, so every cell belonging to a column that actually EXISTS in the
merged frame reaches the report sink non-null — but a report column absent
from the merged frame (e.g. "Balance" or "Account No" when the ledger lacks
them) still reaches the sink as a null/blank, because `fillna` only fills
existing cells.  On an unmatched row the counterparty and
secondary-invoice-number cells are written as the string "-", DPP and PPN as
numeric 0, and the variance cell equals the (generally non-zero) net, not
numeric 0. -/
theorem C10_fill_policy (k3 ct1 ct2 : DF) (f : List Row)
    (rep : List (List (Option Cell)))
    (hok : compare_files k3 ct1 ct2 = Except.ok (f, rep)) :
    (∀ r ∈ f, ∀ p ∈ r, p.2 ≠ Cell.na) ∧
    (∀ row ∈ rep, ∀ oc ∈ row, ∀ v : Cell, oc = some v → v ≠ Cell.na) ∧
    (∀ r ∈ f, Row.get r "_merge" = some (Cell.str "left_only") →
      Row.get r "Customer" = some (Cell.str "-") ∧
      Row.get r "NO_FP_MODIF" = some (Cell.str "-") ∧
      Row.get r "DPP" = some (Cell.num 0) ∧
      Row.get r "PPN" = some (Cell.num 0) ∧
      Row.get r "Difference" = Row.get r "K3_NET") := by
  obtain ⟨m, hm, hp⟩ := compare_files_ok hok
  have hf : f = m.map fillRow := congrArg Prod.fst hp
  have hrep : rep = (m.map fillRow).map projectRow := congrArg Prod.snd hp
  refine ⟨?_, ?_, ?_⟩
  · intro r hr p hpr
    rw [hf] at hr
    obtain ⟨b, hbm, rfl⟩ := List.mem_map.mp hr
    exact fillRow_no_na hpr
  · intro row hrow oc hoc v hv
    rw [hrep] at hrow
    obtain ⟨rf, hrf, rfl⟩ := List.mem_map.mp hrow
    obtain ⟨b, hbm, rfl⟩ := List.mem_map.mp hrf
    obtain ⟨c, hc, rfl⟩ := List.mem_map.mp hoc
    exact fillRow_no_na (lookup_mem hv)
  · intro r hr hum
    rw [hf] at hr
    obtain ⟨b, hbm, rfl⟩ := List.mem_map.mp hr
    rw [get_fillRow] at hum
    cases hw : Row.get b "_merge" with
    | none => rw [hw] at hum; simp at hum
    | some w =>
      rw [hw] at hum
      have hum' : (if w = Cell.na then Cell.str "-" else w) = Cell.str "left_only" :=
        Option.some.inj hum
      have hwv : w = Cell.str "left_only" := by
        by_cases hna : w = Cell.na
        · rw [if_pos hna] at hum'
          exact absurd hum' (by decide)
        · rwa [if_neg hna] at hum'
      subst hwv
      obtain ⟨hC, hK, hD, hP, hDiff, hN⟩ := unmatched_facts hm hbm hw
      refine ⟨?_, ?_, ?_, ?_, ?_⟩
      · rw [get_fillRow, hC]
        rfl
      · rw [get_fillRow, hN]
        rfl
      · rw [get_fillRow, hD]
        rfl
      · rw [get_fillRow, hP]
        rfl
      · rw [get_fillRow, get_fillRow, hDiff]

/-- Counterexample to C10 as stated: with a ledger lacking a "Balance"
column and one unmatched row of net 100, the report's Balance cell (position
9) reaches the sink as a null — `fillna` only fills cells of existing
columns — and the variance cell (position 14) is numeric 100, not 0. -/
theorem C10_counterexample :
    (compare_files unmatchedK3 cxC1 cxC2).map
        (fun p => p.2.map (fun row => (row[9]?, row[14]?)))
      = Except.ok [(some none, some (some (Cell.num 100)))] := by
  with_unfolding_all rfl

/-- Witness for the amended C10 on the concrete unmatched run. -/
theorem C10_fill_policy_witness :
    Row.get c10row "Customer" = some (Cell.str "-") ∧
    Row.get c10row "NO_FP_MODIF" = some (Cell.str "-") ∧
    Row.get c10row "Difference" = Row.get c10row "K3_NET" := by
  have hok : compare_files unmatchedK3 cxC1 cxC2
      = Except.ok ([c10row], [projectRow c10row]) := by
    with_unfolding_all rfl
  have h := (C10_fill_policy unmatchedK3 cxC1 cxC2 [c10row] [projectRow c10row] hok).2.2
    c10row (List.mem_singleton.mpr rfl) (by with_unfolding_all rfl)
  exact ⟨h.1, h.2.1, h.2.2.2.2⟩

end FakturMatch
